import Mathlib

set_option maxHeartbeats 1000000
set_option linter.unusedVariables false

/-!
Shallow embedding of src/src/Draw.c, the scanline rasterization core of
Tilengine, together with theorems settling the frozen claims about it.

Modelling conventions, used throughout:
* C int values are Int; C % and / are truncated (Int.tmod, Int.tdiv);
  the arithmetic right shift of the targeted compilers is floor division
  by a power of two; the bitwise AND against an all-ones mask (the
  tileset hmask and vmask fields, which the data-model invariant forces
  to be a power of two minus one) is the Euclidean remainder by mask+1.
* 32-bit RGBA pixels and 8-bit palette indices are Nat values.
* Pixel buffers are total functions from Int offsets to Nat pixels;
  a pointer into a buffer is an Int base offset.
* Code that lives outside src/ (blitters, tile and bitmap samplers,
  fixed-point helpers, the object intersection test) is modelled from
  the spec; each such definition carries a doc comment saying so.
-/

namespace Tilengine

/-- C truncated remainder, the semantics of the % operator on int. -/
def cmod (a b : Int) : Int := Int.tmod a b

/-- C truncated division, the semantics of the / operator on int. -/
def cdiv (a b : Int) : Int := Int.tdiv a b

/-- Arithmetic right shift by a power of two, as gcc/clang compile the
C >> operator on int: floor division. -/
def sar (a : Int) (n : Nat) : Int := Int.fdiv a (2 ^ n)

/-- Bitwise AND of a two's-complement int against an all-ones mask
(mask = 2^k - 1): equal to the Euclidean remainder by mask + 1.  The
tileset hmask and vmask fields satisfy that shape by the data-model
invariant (power-of-two tile dimensions). -/
def bandMask (a mask : Int) : Int := a % (mask + 1)

/-- Modelled from the spec: fixed-point helpers with FIXED_BITS
fractional bits (fix.h is not part of src/). -/
def FIXED_BITS : Nat := 16

/-- Modelled from the spec: int2fix. -/
def int2fix (a : Int) : Int := a * 2 ^ FIXED_BITS

/-- Modelled from the spec: fix2int, the arithmetic right shift of a
fixed-point value. -/
def fix2int (a : Int) : Int := sar a FIXED_BITS

/-- Bit positions of the tile/sprite flag words (Tilengine.h is not
part of src/; positions as in the public header). -/
def FLAG_FLIPX_BIT : Nat := 15

def FLAG_FLIPY_BIT : Nat := 14

def FLAG_ROTATE_BIT : Nat := 13

def FLAG_PRIORITY_BIT : Nat := 12

def FLAG_MASKED_BIT : Nat := 11

/-- Test of one bit of a C flags word, written so that the kernel can
evaluate it (Nat.land is not kernel-reducible). -/
def hasBit (flags : Nat) (bit : Nat) : Bool := flags / 2 ^ bit % 2 = 1

/-- Clearing one set bit of a C flags word (flags &= ~FLAG). -/
def clearBit (flags : Nat) (bit : Nat) : Nat :=
  if hasBit flags bit then flags - 2 ^ bit else flags

/-- A scanline-sized pixel buffer: Int offsets to pixel words. -/
def Buffer : Type := Int → Nat

/-- Pointwise store into a buffer. -/
def bput (b : Buffer) (k : Int) (v : Nat) : Buffer :=
  fun p => if p = k then v else b p

/-- memset of n leading 32-bit pixels to a constant value. -/
def bfill (b : Buffer) (n : Nat) (v : Nat) : Buffer :=
  fun p => if 0 ≤ p ∧ p < (n : Int) then v else b p

/-- A palette: an array of framebuffer-ready 32-bit words indexed by
8-bit palette index. -/
structure Palette where
  data : Nat → Nat

/-- A blend function handle; none means straight write. -/
def Blend : Type := Option (Nat → Nat → Nat)

/-- Application of an optional blend function to a source word and the
previous destination word. -/
def applyBlend (blend : Blend) (src old : Nat) : Nat :=
  match blend with
  | some f => f src old
  | none => src

/-- One tilemap cell: Tile structure {index, tileset, palette, flags}. -/
structure Tile where
  index : Nat
  tileset : Nat
  palette : Nat
  flags : Nat

/-- A tileset: power-of-two tile dimensions, shift/mask pair, the
logical-to-physical indirection table, per-physical-row color-key
bits, the packed pixel bytes and a default palette. -/
structure Tileset where
  width : Int
  height : Int
  hshift : Nat
  vshift : Nat
  hmask : Int
  vmask : Int
  tiles : Nat → Nat
  colorKey : Int → Bool
  data : Int → Nat
  palette : Palette

/-- Modelled from the spec: the GetTilesetPixel sampler address
computation (Tileset.h is not part of src/): packed tiles of
2^(hshift+vshift) bytes, rows of 2^hshift bytes. -/
def tilesetPixelOfs (ts : Tileset) (tileIndex : Nat) (x y : Int) : Int :=
  (tileIndex : Int) * 2 ^ (ts.hshift + ts.vshift) + y * 2 ^ ts.hshift + x

/-- Modelled from the spec: the GetTilesetLine physical-row index used
to address the per-row color-key table (Tileset.h is not part of
src/). -/
def tilesetLineOfs (ts : Tileset) (tileIndex : Nat) (y : Int) : Int :=
  (tileIndex : Int) * 2 ^ ts.vshift + y

/-- Reading one tileset pixel, as the GetTilesetPixel macro. -/
def GetTilesetPixel (ts : Tileset) (tileIndex : Nat) (x y : Int) : Nat :=
  ts.data (tilesetPixelOfs ts tileIndex x y)

/-- A tilemap: cols x rows grid of cells, indexed row-major, plus its
tileset table. -/
structure Tilemap where
  cols : Int
  rows : Int
  tiles : Int → Tile
  tilesets : Nat → Tileset

/-- An indexed-color bitmap with its default palette. -/
structure Bitmap where
  width : Int
  height : Int
  pitch : Int
  data : Int → Nat
  palette : Palette

/-- Modelled from the spec: the get_bitmap_ptr sampler address
computation (Bitmap.h is not part of src/). -/
def bitmapOfs (bmp : Bitmap) (x y : Int) : Int := y * bmp.pitch + x

/-- One free-positioned object of an object list layer. -/
structure ObjItem where
  x : Int
  y : Int
  width : Int
  height : Int
  flags : Nat
  visible : Bool
  bitmap : Option Bitmap

/-- Modelled from the spec: the IsObjectInLine intersection test
(ObjectList.c is not part of src/): the object horizontal span meets
[x1,x2) and the scanline y falls inside the object rows. -/
def IsObjectInLine (o : ObjItem) (x1 x2 y : Int) : Bool :=
  o.x < x2 ∧ o.x + o.width > x1 ∧ o.y ≤ y ∧ y < o.y + o.height

/-- The per-layer pixel-map entry {dx, dy}. -/
structure PixelMapEntry where
  dx : Int
  dy : Int

/-- A background layer, with exactly one of tilemap / bitmap / objects
present, its clip window, scroll, virtual dimensions, draw mode and
cached blitter-family selection (the scaledBlit field models the
blitter family UpdateLayer installs in layer->blitters). -/
structure Layer where
  ok : Bool
  priority : Bool
  dirty : Bool
  mode : Nat
  tilemap : Option Tilemap
  bitmap : Option Bitmap
  objects : Option (List ObjItem)
  clipx1 : Int
  clipy1 : Int
  clipx2 : Int
  clipy2 : Int
  hstart : Int
  vstart : Int
  width : Int
  height : Int
  palette : Option Palette
  blend : Blend
  column : Option (Int → Int)
  mosaicW : Int
  mosaicH : Int
  mosaicBuffer : Buffer
  dx : Int
  dy : Int
  xfactor : Int
  transform : Int × Int → Int × Int
  pixelMap : Int → PixelMapEntry
  scaledBlit : Bool

/-- An integer rectangle {x1,y1,x2,y2}. -/
structure Rect where
  x1 : Int
  y1 : Int
  x2 : Int
  y2 : Int

/-- A sprite slot.  The mode field selects the draw procedure
installed by GetSpriteDraw (0 flat, 1 scaling); the sprite blitter
UpdateSprite installs is modelled at the call sites as the keyed
blitter of the matching family, since sprites always honor
transparency. -/
structure Sprite where
  srcrect : Rect
  dstrect : Rect
  infoW : Int
  infoH : Int
  pitch : Int
  pixels : Int → Nat
  palette : Palette
  blend : Blend
  flags : Nat
  dx : Int
  dy : Int
  x : Int
  y : Int
  xworld : Int
  yworld : Int
  world_space : Bool
  dirty : Bool
  do_collision : Bool
  collision : Bool
  mode : Nat

/-- The engine singleton state used by the scanline core. -/
structure Engine where
  fbWidth : Nat
  fbHeight : Nat
  pitch : Nat
  framebuffer : Int → Buffer
  priority : Buffer
  linebuffer : Buffer
  collision : Buffer
  palettes : Nat → Option Palette
  numlayers : Nat
  layers : List Layer
  numsprites : Nat
  sprites : Nat → Sprite
  spriteList : List Nat
  line : Int
  dirty : Bool
  bgcolor : Nat
  bgbitmap : Option Bitmap
  bgpalette : Option Palette
  spriteMaskTop : Int
  spriteMaskBottom : Int
  xworld : Int
  yworld : Int

/-- The scratch state a single scanline render mutates: the current
framebuffer row, the priority overlay, the line buffer and the sprite
collision buffer. -/
structure RenderBufs where
  scan : Buffer
  prio : Buffer
  linebuf : Buffer
  coll : Buffer

/-- The read-only per-call context handed to the painters: framebuffer
width, pitch in bytes and the global palette slots. -/
structure DrawCtx where
  width : Nat
  pitch : Nat
  palettes : Nat → Option Palette

/-- memset of nbytes bytes over a 32-bit pixel buffer: clears
nbytes / 4 whole pixels (the byte remainder is not representable at
pixel granularity and is unused by the source). -/
def clearBytes (b : Buffer) (nbytes : Nat) : Buffer := bfill b (nbytes / 4) 0

/-- Modelled from the spec: the inner loop of the blitter primitives
(Blitters.c is not part of src/).  Sample i of a normal blitter is
src[srcx + i*dx]; a scaling blitter keeps a fixed-point accumulator
and samples src[fix2int (srcx + i*dx)].  A keyed blitter skips source
index 0; the optional blend combines the palette word with the
previous destination word. -/
def blitLoop (scaled keyed : Bool) (src : Int → Nat) (pal : Nat → Nat)
    (blend : Blend) (ofs dx srcx : Int) : Nat → Nat → Buffer → Buffer
  | 0, _, dst => dst
  | n + 1, i, dst =>
    let idx := srcx + (i : Int) * dx
    let s := src (if scaled then fix2int idx else idx)
    let dst' :=
      if keyed ∧ s = 0 then dst
      else bput dst (ofs + (i : Int)) (applyBlend blend (pal s) (dst (ofs + (i : Int))))
    blitLoop scaled keyed src pal blend ofs dx srcx n (i + 1) dst'

/-- Modelled from the spec: one call through layer->blitters[keyed] or
sprite->blitter, with signature (src, palette, dst+ofs, width, dx,
srcx, blend).  A non-positive width blits nothing. -/
def TLN_Blit (scaled keyed : Bool) (src : Int → Nat) (pal : Palette)
    (dst : Buffer) (ofs : Int) (width dx srcx : Int) (blend : Blend) : Buffer :=
  blitLoop scaled keyed src pal.data blend ofs dx srcx width.toNat 0 dst

/-- Modelled from the spec: BlitColor, filling size leading pixels of
the scanline with a solid color. -/
def BlitColor (dst : Buffer) (color : Nat) (size : Nat) : Buffer := bfill dst size color

/-- Modelled from the spec: the inner loop of Blit32_32 (Blitters.c is
not part of src/): copy nonzero 32-bit pixels, zero meaning
transparent, honoring the optional blend. -/
def blit32Loop (src dst : Buffer) (srcOfs dstOfs : Int) (blend : Blend) : Nat → Buffer
  | 0 => dst
  | n + 1 =>
    let dst' := blit32Loop src dst srcOfs dstOfs blend n
    let v := src (srcOfs + (n : Int))
    if v ≠ 0 then bput dst' (dstOfs + (n : Int)) (applyBlend blend v (dst' (dstOfs + (n : Int))))
    else dst'

/-- Modelled from the spec: Blit32_32 over a non-negative width. -/
def Blit32_32 (src : Buffer) (srcOfs : Int) (dst : Buffer) (dstOfs : Int)
    (width : Int) (blend : Blend) : Buffer :=
  blit32Loop src dst srcOfs dstOfs blend width.toNat

/-- Modelled from the spec: the inner loop of BlitMosaic (Blitters.c is
not part of src/): pixel i takes the block-start sample
src[i - i mod w], replicating every w pixels, honoring the blend. -/
def blitMosaicLoop (src dst : Buffer) (srcOfs dstOfs : Int) (w : Int) (blend : Blend) :
    Nat → Buffer
  | 0 => dst
  | n + 1 =>
    let dst' := blitMosaicLoop src dst srcOfs dstOfs w blend n
    let block := (n : Int) - (if w ≤ 0 then 0 else (n : Int) % w)
    let v := src (srcOfs + block)
    if v ≠ 0 then bput dst' (dstOfs + (n : Int)) (applyBlend blend v (dst' (dstOfs + (n : Int))))
    else dst'

/-- Modelled from the spec: BlitMosaic over a non-negative width. -/
def BlitMosaic (src : Buffer) (srcOfs : Int) (dst : Buffer) (dstOfs : Int)
    (width : Int) (w : Int) (blend : Blend) : Buffer :=
  blitMosaicLoop src dst srcOfs dstOfs w blend width.toNat

/-- The Tilescan scratch record of Draw.c. -/
structure Tilescan where
  width : Int
  height : Int
  srcx : Int
  srcy : Int
  dx : Int
  stride : Int

/-- process_flip: the flip-only remapping used by the scaling tiled
painter (Draw.c lines 197-207). -/
def process_flip (flags : Nat) (scan : Tilescan) : Tilescan :=
  let scan :=
    if hasBit flags FLAG_FLIPX_BIT then
      { scan with dx := -scan.dx, srcx := scan.width - 1 }
    else scan
  if hasBit flags FLAG_FLIPY_BIT then
    { scan with srcy := scan.height - scan.srcy - 1 }
  else scan

/-- process_flip_rotation: the flip and rotation remapping used by the
flat, affine, pixel-map, sprite and object painters (Draw.c lines
210-239). -/
def process_flip_rotation (flags : Nat) (scan : Tilescan) : Tilescan :=
  if hasBit flags FLAG_ROTATE_BIT then
    let scan := { scan with srcx := scan.srcy, srcy := scan.srcx, dx := scan.dx * scan.stride }
    let scan :=
      if hasBit flags FLAG_FLIPX_BIT then
        { scan with dx := -scan.dx, srcy := scan.height - scan.srcy - 1 }
      else scan
    if hasBit flags FLAG_FLIPY_BIT then
      { scan with srcx := scan.width - scan.srcx - 1 }
    else scan
  else
    let scan :=
      if hasBit flags FLAG_FLIPX_BIT then
        { scan with dx := -scan.dx, srcx := scan.width - scan.srcx - 1 }
      else scan
    if hasBit flags FLAG_FLIPY_BIT then
      { scan with srcy := scan.height - scan.srcy - 1 }
    else scan

/-- check_sprite_coverage (Draw.c lines 25-35); the sprite mask window
comes from the engine. -/
def check_sprite_coverage (maskTop maskBottom : Int) (sprite : Sprite) (nscan : Int) : Bool :=
  if nscan < sprite.dstrect.y1 ∨ nscan ≥ sprite.dstrect.y2 then false
  else if sprite.dstrect.x2 < 0 ∨ sprite.srcrect.x2 < 0 then false
  else if hasBit sprite.flags FLAG_MASKED_BIT ∧ maskTop ≤ nscan ∧ nscan ≤ maskBottom then false
  else true

/-- Marking one sprite slot as collided. -/
def setCollision (sprites : Nat → Sprite) (n : Nat) : Nat → Sprite :=
  fun m => if m = n then { sprites n with collision := true } else sprites m

/-- The shared loop shape of DrawSpriteCollision and
DrawSpriteCollisionScaling: f maps the running source accumulator to
the sampled source index (the identity for the flat recorder, the
fixed-point projection for the scaling one). -/
def collisionLoop (f : Int → Int) (nsprite : Nat) (src : Int → Nat) (acc dstOfs dx : Int) :
    Nat → Buffer → (Nat → Sprite) → Buffer × (Nat → Sprite)
  | 0, buf, sprites => (buf, sprites)
  | n + 1, buf, sprites =>
    let s := src (f acc)
    let next :=
      if s ≠ 0 then
        let sprites' :=
          if buf dstOfs ≠ 65535 then setCollision (setCollision sprites nsprite) (buf dstOfs)
          else sprites
        (bput buf dstOfs (nsprite % 65536), sprites')
      else (buf, sprites)
    collisionLoop f nsprite src (acc + dx) (dstOfs + 1) dx n next.1 next.2

/-- DrawSpriteCollision (Draw.c lines 702-719): walk the sprite
scanline, record the sprite id at every opaque destination pixel and
flag both sprites when the slot already holds another id. -/
def DrawSpriteCollision (nsprite : Nat) (src : Int → Nat) (dstOfs : Int) (width : Nat)
    (dx : Int) (buf : Buffer) (sprites : Nat → Sprite) : Buffer × (Nat → Sprite) :=
  collisionLoop (fun a => a) nsprite src 0 dstOfs dx width buf sprites

/-- DrawSpriteCollisionScaling (Draw.c lines 722-742): as the flat
recorder, but the source index is srcx / (1 << FIXED_BITS) with srcx
advancing by the fixed-point dx. -/
def DrawSpriteCollisionScaling (nsprite : Nat) (src : Int → Nat) (dstOfs : Int) (width : Nat)
    (dx srcx : Int) (buf : Buffer) (sprites : Nat → Sprite) : Buffer × (Nat → Sprite) :=
  collisionLoop (fun a => cdiv a (2 ^ FIXED_BITS)) nsprite src srcx dstOfs dx width buf sprites

/-- The ypos computation of the flat tiled painter when a column
offset array is present (Draw.c lines 279-281): truncated remainder,
negative results wrapped by adding the layer height. -/
def flatYposColumn (vstart nscan colval height : Int) : Int :=
  let y := cmod (vstart + nscan + colval) height
  if y < 0 then height + y else y

/-- The ypos computation of the flat tiled painter without a column
array (Draw.c line 284): truncated remainder, no negative wrap. -/
def flatYposNoColumn (vstart nscan height : Int) : Int :=
  cmod (vstart + nscan) height

/-- The xpos computation of the flat tiled painter (Draw.c line 264):
truncated remainder of hstart + x, no negative wrap. -/
def flatXpos (hstart x width : Int) : Int := cmod (hstart + x) width

/-- The per-column ypos function a flat tiled painter run uses,
selected by the presence of the column array. -/
def layerYposFlat (column : Option (Int → Int)) (vstart nscan height : Int) : Int → Int :=
  match column with
  | some col => fun c => flatYposColumn vstart nscan (col c) height
  | none => fun _ => flatYposNoColumn vstart nscan height

/-- The palette choice of the tiled painters (Draw.c lines 304-309):
layer override first, then the global palette slot named by the tile,
then the tileset default. -/
def selectTilePalette (ctx : DrawCtx) (layerPal : Option Palette) (ts : Tileset) (tile : Tile) :
    Palette :=
  match layerPal with
  | some p => p
  | none =>
    match ctx.palettes tile.palette with
    | some p => p
    | none => ts.palette

/-- Shorthand for (flags & (FLAG_FLIPX + FLAG_FLIPY + FLAG_ROTATE)) != 0. -/
def anyFlipRot (flags : Nat) : Bool :=
  hasBit flags FLAG_FLIPX_BIT ∨ hasBit flags FLAG_FLIPY_BIT ∨ hasBit flags FLAG_ROTATE_BIT

/-- Shorthand for (flags & (FLAG_FLIPX + FLAG_FLIPY)) != 0. -/
def anyFlip (flags : Nat) : Bool :=
  hasBit flags FLAG_FLIPX_BIT ∨ hasBit flags FLAG_FLIPY_BIT

/-- One recorded blitter invocation of a tiled painter: which of the
two layer blitters was called (true = index 1, the keyed one), the
color-key bit the painter computed for the sampled row, the raw
tilemap cell index, the destination span and whether the span went to
the priority overlay. -/
structure TileEvent where
  keyedIndex : Bool
  colorKey : Bool
  tileIndex : Nat
  x : Int
  width : Int
  intoPrio : Bool
deriving DecidableEq

/-- The tile-span loop of DrawLayerScanline (Draw.c lines 273-335),
parameterized over exactly the layer state the source loop reads:
the right clip edge, the cached blitter family, the blend handle and
the layer palette override.  Fuel bounds the iteration count; the
wrapper passes enough fuel for every configuration in which each
step advances x. -/
def drawTiledFlatLoop (ctx : DrawCtx) (clipx2 : Int) (scaledBlit : Bool) (blend : Blend)
    (layerPal : Option Palette) (tilemap : Tilemap) (ts0 : Tileset) (yposOf : Int → Int) :
    Nat → Int → Int → Int → Int → Buffer → Buffer → Bool → List TileEvent →
    Buffer × Buffer × Bool × List TileEvent
  | 0, _, _, _, _, dst, prio, priority, events => (dst, prio, priority, events)
  | fuel + 1, x, xtile, srcx, column, dst, prio, priority, events =>
    if x < clipx2 then
      let ypos := yposOf column
      let ytile := sar ypos ts0.vshift
      let srcy := bandMask ypos ts0.vmask
      let tile := tilemap.tiles (ytile * tilemap.cols + xtile)
      let tilewidth := ts0.width - srcx
      let x1 := if x + tilewidth > clipx2 then clipx2 else x + tilewidth
      let width := x1 - x
      let xtile' := cmod (xtile + 1) tilemap.cols
      if tile.index ≠ 0 then
        let ts := tilemap.tilesets tile.tileset
        let tileIndex := ts.tiles tile.index
        let pal := selectTilePalette ctx layerPal ts tile
        let scan0 : Tilescan :=
          { width := ts0.width, height := ts0.width, stride := ts0.width,
            srcx := srcx, srcy := srcy, dx := 1 }
        let scan := if anyFlipRot tile.flags then process_flip_rotation tile.flags scan0 else scan0
        let srcFn : Int → Nat :=
          fun k => ts.data (tilesetPixelOfs ts tileIndex scan.srcx scan.srcy + k)
        let intoPrio := hasBit tile.flags FLAG_PRIORITY_BIT
        let ckey := ts.colorKey (tilesetLineOfs ts tileIndex scan.srcy)
        let ev : TileEvent :=
          { keyedIndex := true, colorKey := ckey, tileIndex := tile.index,
            x := x, width := width, intoPrio := intoPrio }
        if intoPrio then
          let prio' := TLN_Blit scaledBlit true srcFn pal prio x width scan.dx 0 blend
          drawTiledFlatLoop ctx clipx2 scaledBlit blend layerPal tilemap ts0 yposOf fuel
            (x + width) xtile' 0 (column + 1) dst prio' true (ev :: events)
        else
          let dst' := TLN_Blit scaledBlit true srcFn pal dst x width scan.dx 0 blend
          drawTiledFlatLoop ctx clipx2 scaledBlit blend layerPal tilemap ts0 yposOf fuel
            (x + width) xtile' 0 (column + 1) dst' prio priority (ev :: events)
      else
        drawTiledFlatLoop ctx clipx2 scaledBlit blend layerPal tilemap ts0 yposOf fuel
          (x + width) xtile' 0 (column + 1) dst prio priority events
    else (dst, prio, priority, events)

/-- blit_mosaic (Draw.c lines 169-175). -/
def blit_mosaic (layer : Layer) (scanBuf : Buffer) : Buffer :=
  BlitMosaic layer.mosaicBuffer layer.clipx1 scanBuf layer.clipx1
    (layer.clipx2 - layer.clipx1) layer.mosaicW layer.blend

/-- blit_buffer32 (Draw.c lines 178-184). -/
def blit_buffer32 (layer : Layer) (linebuf scanBuf : Buffer) : Buffer :=
  Blit32_32 linebuf layer.clipx1 scanBuf layer.clipx1
    (layer.clipx2 - layer.clipx1) layer.blend

/-- The body of DrawLayerScanline after the destination buffer has been
chosen: initial sampling position, then the tile-span loop. -/
def drawTiledFlatBody (ctx : DrawCtx) (layer : Layer) (tilemap : Tilemap) (nscan : Int)
    (dst prio : Buffer) : Buffer × Buffer × Bool × List TileEvent :=
  let x := layer.clipx1
  let ts0 := tilemap.tilesets 0
  let xpos := flatXpos layer.hstart x layer.width
  let xtile := sar xpos ts0.hshift
  let srcx := bandMask xpos ts0.hmask
  let column := cmod x ts0.width
  let fuel := (layer.clipx2 - layer.clipx1).toNat + 1
  drawTiledFlatLoop ctx layer.clipx2 layer.scaledBlit layer.blend layer.palette tilemap ts0
    (layerYposFlat layer.column layer.vstart nscan layer.height) fuel
    x xtile srcx column dst prio false []

/-- DrawLayerScanline (Draw.c lines 242-342): the flat tiled painter,
including the mosaic gating, returning the painted buffers, the
priority flag and the recorded blitter invocations. -/
def DrawLayerScanline (ctx : DrawCtx) (layer : Layer) (nscan : Int) (bufs : RenderBufs) :
    Bool × RenderBufs × Layer × List TileEvent :=
  match layer.tilemap with
  | none => (false, bufs, layer, [])
  | some tilemap =>
    if layer.mosaicH ≠ 0 then
      if cmod nscan layer.mosaicH = 0 then
        let dst0 := clearBytes layer.mosaicBuffer ctx.width
        let r := drawTiledFlatBody ctx layer tilemap nscan dst0 bufs.prio
        let layer' := { layer with mosaicBuffer := r.1 }
        (r.2.2.1, { bufs with scan := blit_mosaic layer' bufs.scan, prio := r.2.1 },
          layer', r.2.2.2)
      else
        (false, { bufs with scan := blit_mosaic layer bufs.scan }, layer, [])
    else
      let r := drawTiledFlatBody ctx layer tilemap nscan bufs.scan bufs.prio
      (r.2.2.1, { bufs with scan := r.1, prio := r.2.1 }, layer, r.2.2.2)

/-- The tile-span loop of DrawLayerScanlineScaling (Draw.c lines
377-449). -/
def drawTiledScalingLoop (ctx : DrawCtx) (layer : Layer) (tilemap : Tilemap) (ts0 : Tileset)
    (nscan : Int) :
    Nat → Int → Int → Int → Int → Int → Buffer → Buffer → Bool → List TileEvent →
    Buffer × Buffer × Bool × List TileEvent
  | 0, _, _, _, _, _, dst, prio, priority, events => (dst, prio, priority, events)
  | fuel + 1, x, xtile, srcx, column, fixX, dst, prio, priority, events =>
    if x < layer.clipx2 then
      let ypos0 := nscan + (match layer.column with | some col => col column | none => 0)
      let ypos1 := layer.vstart + fix2int (ypos0 * layer.dy)
      let ypos := if ypos1 < 0 then layer.height + ypos1 else cmod ypos1 layer.height
      let ytile := sar ypos ts0.vshift
      let srcy := bandMask ypos ts0.vmask
      let tile := tilemap.tiles (ytile * tilemap.cols + xtile)
      let tilewidth := ts0.width - srcx
      let dx0 := int2fix tilewidth
      let fixX' := fixX + tilewidth * layer.xfactor
      let x1 := fix2int fixX'
      let tilescalewidth := x1 - x
      let dx := if tilescalewidth ≠ 0 then cdiv dx0 tilescalewidth else 0
      let x1c := if x1 > layer.clipx2 then layer.clipx2 else x1
      let width := x1c - x
      let xtile' := cmod (xtile + 1) tilemap.cols
      if tile.index ≠ 0 then
        let ts := tilemap.tilesets tile.tileset
        let tileIndex := ts.tiles tile.index
        let pal := selectTilePalette ctx layer.palette ts tile
        let scan0 : Tilescan :=
          { width := ts0.width, height := ts0.width, stride := ts0.width,
            srcx := srcx, srcy := srcy, dx := dx }
        let scan := if anyFlip tile.flags then process_flip tile.flags scan0 else scan0
        let srcFn : Int → Nat :=
          fun k => ts.data (tilesetPixelOfs ts tileIndex scan.srcx scan.srcy + k)
        let intoPrio := hasBit tile.flags FLAG_PRIORITY_BIT
        let ckey := ts.colorKey (tilesetLineOfs ts tileIndex scan.srcy)
        let ev : TileEvent :=
          { keyedIndex := ckey, colorKey := ckey, tileIndex := tile.index,
            x := x, width := width, intoPrio := intoPrio }
        if intoPrio then
          let prio' := TLN_Blit layer.scaledBlit ckey srcFn pal prio x width scan.dx 0 layer.blend
          drawTiledScalingLoop ctx layer tilemap ts0 nscan fuel x1c xtile' 0 (column + 1) fixX'
            dst prio' true (ev :: events)
        else
          let dst' := TLN_Blit layer.scaledBlit ckey srcFn pal dst x width scan.dx 0 layer.blend
          drawTiledScalingLoop ctx layer tilemap ts0 nscan fuel x1c xtile' 0 (column + 1) fixX'
            dst' prio priority (ev :: events)
      else
        drawTiledScalingLoop ctx layer tilemap ts0 nscan fuel x1c xtile' 0 (column + 1) fixX'
          dst prio priority events
    else (dst, prio, priority, events)

/-- The body of DrawLayerScanlineScaling after destination choice
(Draw.c lines 363-376). -/
def drawTiledScalingBody (ctx : DrawCtx) (layer : Layer) (tilemap : Tilemap) (nscan : Int)
    (dst prio : Buffer) : Buffer × Buffer × Bool × List TileEvent :=
  let x := layer.clipx1
  let ts0 := tilemap.tilesets 0
  let xpos := cmod (layer.hstart + fix2int (x * layer.dx)) layer.width
  let xtile := sar xpos ts0.hshift
  let srcx := bandMask xpos ts0.hmask
  let column := cmod x ts0.width
  let fuel := (layer.clipx2 - layer.clipx1).toNat + 1
  drawTiledScalingLoop ctx layer tilemap ts0 nscan fuel x xtile srcx column (int2fix x)
    dst prio false []

/-- DrawLayerScanlineScaling (Draw.c lines 345-456): the scaling tiled
painter, including the mosaic gating. -/
def DrawLayerScanlineScaling (ctx : DrawCtx) (layer : Layer) (nscan : Int) (bufs : RenderBufs) :
    Bool × RenderBufs × Layer × List TileEvent :=
  match layer.tilemap with
  | none => (false, bufs, layer, [])
  | some tilemap =>
    if layer.mosaicH ≠ 0 then
      if cmod nscan layer.mosaicH = 0 then
        let dst0 := clearBytes layer.mosaicBuffer ctx.width
        let r := drawTiledScalingBody ctx layer tilemap nscan dst0 bufs.prio
        let layer' := { layer with mosaicBuffer := r.1 }
        (r.2.2.1, { bufs with scan := blit_mosaic layer' bufs.scan, prio := r.2.1 },
          layer', r.2.2.2)
      else
        (false, { bufs with scan := blit_mosaic layer bufs.scan }, layer, [])
    else
      let r := drawTiledScalingBody ctx layer tilemap nscan bufs.scan bufs.prio
      (r.2.2.1, { bufs with scan := r.1, prio := r.2.1 }, layer, r.2.2.2)

/-- The xpos computation of the affine painters (Draw.c lines 508,
910): absolute value of fix2int plus one layer width, reduced modulo
the layer width. -/
def affineXpos (layerWidth x1 : Int) : Int :=
  cmod ((Int.natAbs (fix2int x1 + layerWidth) : Int)) layerWidth

/-- The tilemap cell the affine painter samples for fixed-point layer
coordinates (x1, y1). -/
def affineTileAt (layer : Layer) (tilemap : Tilemap) (ts0 : Tileset) (x1 y1 : Int) : Tile :=
  let xpos := affineXpos layer.width x1
  let ypos := affineXpos layer.height y1
  tilemap.tiles (sar ypos ts0.vshift * tilemap.cols + sar xpos ts0.hshift)

/-- The per-pixel loop of DrawLayerScanlineAffine (Draw.c lines
506-538); dstIdx starts at 0, as the source walks dstpixel from the
start of the line buffer. -/
def drawTiledAffineLoop (layer : Layer) (tilemap : Tilemap) (ts0 : Tileset) (dx dy : Int) :
    Nat → Int → Int → Int → Buffer → Buffer
  | 0, _, _, _, dst => dst
  | n + 1, dstIdx, x1, y1, dst =>
    let xpos := affineXpos layer.width x1
    let ypos := affineXpos layer.height y1
    let tile := affineTileAt layer tilemap ts0 x1 y1
    let dst' :=
      if tile.index ≠ 0 then
        let ts := tilemap.tilesets tile.tileset
        let tileIndex := ts.tiles tile.index
        let scan0 : Tilescan :=
          { width := ts0.width, height := ts0.width, stride := ts0.width,
            srcx := bandMask xpos ts0.hmask, srcy := bandMask ypos ts0.vmask, dx := 0 }
        let scan := if anyFlipRot tile.flags then process_flip_rotation tile.flags scan0 else scan0
        let pal := match layer.palette with | some p => p | none => ts.palette
        bput dst dstIdx (pal.data (GetTilesetPixel ts tileIndex scan.srcx scan.srcy))
      else dst
    drawTiledAffineLoop layer tilemap ts0 dx dy n (dstIdx + 1) (x1 + dx) (y1 + dy) dst'

/-- The body of DrawLayerScanlineAffine after destination choice
(Draw.c lines 480-538): transform the span endpoints, derive the
per-pixel fixed-point steps, walk the pixels. -/
def drawTiledAffineBody (layer : Layer) (tilemap : Tilemap) (nscan : Int) (dst : Buffer) :
    Buffer :=
  let x := layer.clipx1
  let width := layer.clipx2
  let ts0 := tilemap.tilesets 0
  let xpos := layer.hstart
  let ypos := layer.vstart + nscan
  let p1 := layer.transform (xpos, ypos)
  let p2 := layer.transform (xpos + width, ypos)
  let dx := cdiv (p2.1 - p1.1) width
  let dy := cdiv (p2.2 - p1.2) width
  drawTiledAffineLoop layer tilemap ts0 dx dy (width - x).toNat 0 p1.1 p1.2 dst

/-- DrawLayerScanlineAffine (Draw.c lines 459-546): writes through the
line buffer (or the mosaic buffer) and always reports no priority. -/
def DrawLayerScanlineAffine (ctx : DrawCtx) (layer : Layer) (nscan : Int) (bufs : RenderBufs) :
    Bool × RenderBufs × Layer :=
  match layer.tilemap with
  | none => (false, bufs, layer)
  | some tilemap =>
    if layer.mosaicH ≠ 0 then
      if cmod nscan layer.mosaicH = 0 then
        let dst0 := clearBytes layer.mosaicBuffer ctx.width
        let dstF := drawTiledAffineBody layer tilemap nscan dst0
        let layer' := { layer with mosaicBuffer := dstF }
        (false, { bufs with scan := blit_mosaic layer' bufs.scan }, layer')
      else
        (false, { bufs with scan := blit_mosaic layer bufs.scan }, layer)
    else
      let dst0 := clearBytes bufs.linebuf ctx.pitch
      let dstF := drawTiledAffineBody layer tilemap nscan dst0
      (false, { bufs with scan := blit_buffer32 layer dstF bufs.scan, linebuf := dstF }, layer)

/-- The per-pixel loop of DrawLayerScanlinePixelMapping (Draw.c lines
583-614). -/
def drawTiledPixelMapLoop (ctx : DrawCtx) (layer : Layer) (tilemap : Tilemap) (ts0 : Tileset)
    (nscan : Int) : Nat → Int → Int → Buffer → Buffer
  | 0, _, _, dst => dst
  | n + 1, x, dstIdx, dst =>
    let pm := layer.pixelMap (nscan * (ctx.width : Int) + x)
    let xpos := cmod ((Int.natAbs (layer.hstart + layer.width + pm.dx) : Int)) layer.width
    let ypos := cmod ((Int.natAbs (layer.vstart + layer.height + pm.dy) : Int)) layer.height
    let tile := tilemap.tiles (sar ypos ts0.vshift * tilemap.cols + sar xpos ts0.hshift)
    let dst' :=
      if tile.index ≠ 0 then
        let ts := tilemap.tilesets tile.tileset
        let tileIndex := ts.tiles tile.index
        let scan0 : Tilescan :=
          { width := ts0.width, height := ts0.width, stride := ts0.width,
            srcx := bandMask xpos ts0.hmask, srcy := bandMask ypos ts0.vmask, dx := 0 }
        let scan := if anyFlipRot tile.flags then process_flip_rotation tile.flags scan0 else scan0
        let pal := match layer.palette with | some p => p | none => ts.palette
        bput dst dstIdx (pal.data (GetTilesetPixel ts tileIndex scan.srcx scan.srcy))
      else dst
    drawTiledPixelMapLoop ctx layer tilemap ts0 nscan n (x + 1) (dstIdx + 1) dst'

/-- The body of DrawLayerScanlinePixelMapping after destination choice
(Draw.c lines 570-614): x runs from clip.x1 while it is below
clip.x2 - clip.x1, exactly as the source loop condition reads. -/
def drawTiledPixelMapBody (ctx : DrawCtx) (layer : Layer) (tilemap : Tilemap) (nscan : Int)
    (dst : Buffer) : Buffer :=
  let x := layer.clipx1
  let width := layer.clipx2 - layer.clipx1
  let ts0 := tilemap.tilesets 0
  drawTiledPixelMapLoop ctx layer tilemap ts0 nscan (width - x).toNat x 0 dst

/-- DrawLayerScanlinePixelMapping (Draw.c lines 549-622): writes
through the line buffer (or the mosaic buffer), never touches the
priority overlay, and returns true on every path. -/
def DrawLayerScanlinePixelMapping (ctx : DrawCtx) (layer : Layer) (nscan : Int)
    (bufs : RenderBufs) : Bool × RenderBufs × Layer :=
  match layer.tilemap with
  | none => (true, bufs, layer)
  | some tilemap =>
    if layer.mosaicH ≠ 0 then
      if cmod nscan layer.mosaicH = 0 then
        let dst0 := clearBytes layer.mosaicBuffer ctx.width
        let dstF := drawTiledPixelMapBody ctx layer tilemap nscan dst0
        let layer' := { layer with mosaicBuffer := dstF }
        (true, { bufs with scan := blit_mosaic layer' bufs.scan }, layer')
      else
        (true, { bufs with scan := blit_mosaic layer bufs.scan }, layer)
    else
      let dst0 := clearBytes bufs.linebuf ctx.pitch
      let dstF := drawTiledPixelMapBody ctx layer tilemap nscan dst0
      (true, { bufs with scan := blit_buffer32 layer dstF bufs.scan, linebuf := dstF }, layer)

/-- The span loop of DrawBitmapScanline (Draw.c lines 771-785). -/
def drawBitmapFlatLoop (layer : Layer) (bmp : Bitmap) (pal : Palette) (ypos : Int) :
    Nat → Int → Int → Int → Buffer → Buffer
  | 0, _, _, _, dst => dst
  | fuel + 1, x, dstOfs, xpos, dst =>
    if x < layer.clipx2 then
      let width := layer.width - xpos
      let x1 := if x + width > layer.clipx2 then layer.clipx2 else x + width
      let width := x1 - x
      let srcFn : Int → Nat := fun k => bmp.data (bitmapOfs bmp xpos ypos + k)
      let dst' := TLN_Blit layer.scaledBlit true srcFn pal dst dstOfs width 1 0 layer.blend
      drawBitmapFlatLoop layer bmp pal ypos fuel (x + width) (dstOfs + width) 0 dst'
    else dst

/-- DrawBitmapScanline (Draw.c lines 745-792): flat bitmap layer
painter; always reports no priority. -/
def DrawBitmapScanline (ctx : DrawCtx) (layer : Layer) (nscan : Int) (bufs : RenderBufs) :
    Bool × RenderBufs × Layer :=
  match layer.bitmap with
  | none => (false, bufs, layer)
  | some bmp =>
    let pal := match layer.palette with | some p => p | none => bmp.palette
    let body := fun (dst : Buffer) =>
      let x := layer.clipx1
      let ypos := cmod (layer.vstart + nscan) layer.height
      let xpos := cmod (layer.hstart + x) layer.width
      drawBitmapFlatLoop layer bmp pal ypos ((layer.clipx2 - layer.clipx1).toNat + 1)
        x x xpos dst
    if layer.mosaicH ≠ 0 then
      if cmod nscan layer.mosaicH = 0 then
        let layer' := { layer with mosaicBuffer := body (clearBytes layer.mosaicBuffer ctx.width) }
        (false, { bufs with scan := blit_mosaic layer' bufs.scan }, layer')
      else
        (false, { bufs with scan := blit_mosaic layer bufs.scan }, layer)
    else
      (false, { bufs with scan := body bufs.scan }, layer)

/-- The span loop of DrawBitmapScanlineScaling (Draw.c lines 821-854). -/
def drawBitmapScalingLoop (layer : Layer) (bmp : Bitmap) (pal : Palette) (nscan : Int) :
    Nat → Int → Int → Int → Int → Buffer → Buffer
  | 0, _, _, _, _, dst => dst
  | fuel + 1, x, dstOfs, xpos, fixX, dst =>
    if x < layer.clipx2 then
      let ypos0 := layer.vstart + fix2int (nscan * layer.dy)
      let ypos := if ypos0 < 0 then layer.height + ypos0 else cmod ypos0 layer.height
      let width := layer.width - xpos
      let dx0 := int2fix width
      let fixX' := fixX + width * layer.xfactor
      let x1 := fix2int fixX'
      let tilescalewidth := x1 - x
      let dx := if tilescalewidth ≠ 0 then cdiv dx0 tilescalewidth else 0
      let x1c := if x1 > layer.clipx2 then layer.clipx2 else x1
      let width := x1c - x
      let srcFn : Int → Nat := fun k => bmp.data (bitmapOfs bmp xpos ypos + k)
      let dst' := TLN_Blit layer.scaledBlit true srcFn pal dst dstOfs width dx 0 layer.blend
      drawBitmapScalingLoop layer bmp pal nscan fuel x1c (dstOfs + width) 0 fixX' dst'
    else dst

/-- DrawBitmapScanlineScaling (Draw.c lines 795-861): scaling bitmap
layer painter; always reports no priority. -/
def DrawBitmapScanlineScaling (ctx : DrawCtx) (layer : Layer) (nscan : Int) (bufs : RenderBufs) :
    Bool × RenderBufs × Layer :=
  match layer.bitmap with
  | none => (false, bufs, layer)
  | some bmp =>
    let pal := match layer.palette with | some p => p | none => bmp.palette
    let body := fun (dst : Buffer) =>
      let x := layer.clipx1
      let xpos := cmod (layer.hstart + fix2int (x * layer.dx)) layer.width
      drawBitmapScalingLoop layer bmp pal nscan ((layer.clipx2 - layer.clipx1).toNat + 1)
        x x xpos (int2fix x) dst
    if layer.mosaicH ≠ 0 then
      if cmod nscan layer.mosaicH = 0 then
        let layer' := { layer with mosaicBuffer := body (clearBytes layer.mosaicBuffer ctx.width) }
        (false, { bufs with scan := blit_mosaic layer' bufs.scan }, layer')
      else
        (false, { bufs with scan := blit_mosaic layer bufs.scan }, layer)
    else
      (false, { bufs with scan := body bufs.scan }, layer)

/-- The per-pixel loop of DrawBitmapScanlineAffine (Draw.c lines
908-919); the write is unconditional, even for palette index 0. -/
def drawBitmapAffineLoop (layer : Layer) (bmp : Bitmap) (pal : Palette) (dx dy : Int) :
    Nat → Int → Int → Int → Buffer → Buffer
  | 0, _, _, _, dst => dst
  | n + 1, dstIdx, x1, y1, dst =>
    let xpos := affineXpos layer.width x1
    let ypos := affineXpos layer.height y1
    let dst' := bput dst dstIdx (pal.data (bmp.data (bitmapOfs bmp xpos ypos)))
    drawBitmapAffineLoop layer bmp pal dx dy n (dstIdx + 1) (x1 + dx) (y1 + dy) dst'

/-- DrawBitmapScanlineAffine (Draw.c lines 864-927): affine bitmap
layer painter working through the line buffer; always reports no
priority. -/
def DrawBitmapScanlineAffine (ctx : DrawCtx) (layer : Layer) (nscan : Int) (bufs : RenderBufs) :
    Bool × RenderBufs × Layer :=
  match layer.bitmap with
  | none => (false, bufs, layer)
  | some bmp =>
    let pal := match layer.palette with | some p => p | none => bmp.palette
    let body := fun (dst : Buffer) =>
      let x := layer.clipx1
      let width := layer.clipx2
      let p1 := layer.transform (layer.hstart, layer.vstart + nscan)
      let p2 := layer.transform (layer.hstart + width, layer.vstart + nscan)
      let dx := cdiv (p2.1 - p1.1) width
      let dy := cdiv (p2.2 - p1.2) width
      drawBitmapAffineLoop layer bmp pal dx dy (width - x).toNat 0 p1.1 p1.2 dst
    if layer.mosaicH ≠ 0 then
      if cmod nscan layer.mosaicH = 0 then
        let layer' := { layer with mosaicBuffer := body (clearBytes layer.mosaicBuffer ctx.width) }
        (false, { bufs with scan := blit_mosaic layer' bufs.scan }, layer')
      else
        (false, { bufs with scan := blit_mosaic layer bufs.scan }, layer)
    else
      let dstF := body (clearBytes bufs.linebuf ctx.pitch)
      (false, { bufs with scan := blit_buffer32 layer dstF bufs.scan, linebuf := dstF }, layer)

/-- The per-pixel loop of DrawBitmapScanlinePixelMapping (Draw.c lines
960-970).  The source reads layer->palette->data directly without the
bitmap fallback (the anomaly flagged in the spec); a missing layer
palette is modelled as value 0 where the C dereferences a null
pointer. -/
def drawBitmapPixelMapLoop (ctx : DrawCtx) (layer : Layer) (bmp : Bitmap) (nscan : Int) :
    Nat → Int → Int → Buffer → Buffer
  | 0, _, _, dst => dst
  | n + 1, x, dstIdx, dst =>
    let pm := layer.pixelMap (nscan * (ctx.width : Int) + x)
    let xpos := cmod ((Int.natAbs (layer.hstart + layer.width + pm.dx) : Int)) layer.width
    let ypos := cmod ((Int.natAbs (layer.vstart + layer.height + pm.dy) : Int)) layer.height
    let v := match layer.palette with
      | some p => p.data (bmp.data (bitmapOfs bmp xpos ypos))
      | none => 0
    drawBitmapPixelMapLoop ctx layer bmp nscan n (x + 1) (dstIdx + 1) (bput dst dstIdx v)

/-- DrawBitmapScanlinePixelMapping (Draw.c lines 930-978): pixel-map
bitmap layer painter working through the line buffer; always reports
no priority. -/
def DrawBitmapScanlinePixelMapping (ctx : DrawCtx) (layer : Layer) (nscan : Int)
    (bufs : RenderBufs) : Bool × RenderBufs × Layer :=
  match layer.bitmap with
  | none => (false, bufs, layer)
  | some bmp =>
    let body := fun (dst : Buffer) =>
      let x := layer.clipx1
      let width := layer.clipx2 - layer.clipx1
      drawBitmapPixelMapLoop ctx layer bmp nscan (width - x).toNat x 0 dst
    if layer.mosaicH ≠ 0 then
      if cmod nscan layer.mosaicH = 0 then
        let layer' := { layer with mosaicBuffer := body (clearBytes layer.mosaicBuffer ctx.width) }
        (false, { bufs with scan := blit_mosaic layer' bufs.scan }, layer')
      else
        (false, { bufs with scan := blit_mosaic layer bufs.scan }, layer)
    else
      let dstF := body (clearBytes bufs.linebuf ctx.pitch)
      (false, { bufs with scan := blit_buffer32 layer dstF bufs.scan, linebuf := dstF }, layer)

/-- One object of DrawLayerObjectScanline (Draw.c lines 993-1043). -/
def drawObjectStep (layer : Layer) (x1 x2 y : Int) (o : ObjItem)
    (st : Buffer × Buffer × Bool) : Buffer × Buffer × Bool :=
  let (scanBuf, prioBuf, priority) := st
  let tmp := if hasBit o.flags FLAG_ROTATE_BIT then
      { o with width := o.height, height := o.width } else o
  match tmp.bitmap with
  | none => st
  | some bmp =>
    if IsObjectInLine tmp x1 x2 y ∧ tmp.visible then
      let srcx : Int := 0
      let srcy := y - tmp.y
      let dstx1 := tmp.x - x1
      let dstx2 := dstx1 + tmp.width
      let srcx := if dstx1 < layer.clipx1 then layer.clipx1 - dstx1 else srcx
      let dstx1 := if dstx1 < layer.clipx1 then 0 else dstx1
      let dstx2 := if dstx2 > layer.clipx2 then layer.clipx2 else dstx2
      let w := dstx2 - dstx1
      let scan0 : Tilescan :=
        { width := bmp.width, height := bmp.height, stride := bmp.pitch,
          srcx := srcx, srcy := srcy, dx := 1 }
      let scan := if anyFlipRot tmp.flags then process_flip_rotation tmp.flags scan0 else scan0
      let srcFn : Int → Nat := fun k => bmp.data (bitmapOfs bmp scan.srcx scan.srcy + k)
      if hasBit tmp.flags FLAG_PRIORITY_BIT then
        (scanBuf,
          TLN_Blit layer.scaledBlit true srcFn bmp.palette prioBuf dstx1 w scan.dx 0 layer.blend,
          true)
      else
        (TLN_Blit layer.scaledBlit true srcFn bmp.palette scanBuf dstx1 w scan.dx 0 layer.blend,
          prioBuf, priority)
    else st

/-- DrawLayerObjectScanline (Draw.c lines 981-1046): walk the object
list, painting each object that intersects the scanline. -/
def DrawLayerObjectScanline (ctx : DrawCtx) (layer : Layer) (nscan : Int) (bufs : RenderBufs) :
    Bool × RenderBufs × Layer :=
  match layer.objects with
  | none => (false, bufs, layer)
  | some objs =>
    let x1 := layer.hstart + layer.clipx1
    let x2 := layer.hstart + layer.clipx2
    let y := layer.vstart + nscan
    let r := objs.foldl (fun st o => drawObjectStep layer x1 x2 y o st)
      (bufs.scan, bufs.prio, false)
    (r.2.2, { bufs with scan := r.1, prio := r.2.1 }, layer)

/-- DrawSpriteScanline (Draw.c lines 625-660): flat sprite painter,
blitting one sprite row and recording collision when enabled. -/
def DrawSpriteScanline (ctx : DrawCtx) (nsprite : Nat) (nscan : Int)
    (sprites : Nat → Sprite) (bufs : RenderBufs) : (Nat → Sprite) × RenderBufs :=
  let sprite := sprites nsprite
  let scan0 : Tilescan :=
    { width := sprite.infoW, height := sprite.infoH, stride := sprite.pitch,
      srcx := sprite.srcrect.x1, srcy := sprite.srcrect.y1 + (nscan - sprite.dstrect.y1),
      dx := 1 }
  let flags :=
    if hasBit sprite.flags FLAG_ROTATE_BIT ∧ sprite.infoW ≠ sprite.infoH then
      clearBit sprite.flags FLAG_ROTATE_BIT
    else sprite.flags
  let w := sprite.dstrect.x2 - sprite.dstrect.x1
  let scan := if anyFlipRot flags then process_flip_rotation flags scan0 else scan0
  let srcFn : Int → Nat :=
    fun k => sprite.pixels (scan.srcy * sprite.pitch + scan.srcx + k)
  let scanBuf := TLN_Blit false true srcFn sprite.palette bufs.scan sprite.dstrect.x1
    w scan.dx 0 sprite.blend
  if sprite.do_collision then
    let r := DrawSpriteCollision nsprite srcFn sprite.dstrect.x1 w.toNat scan.dx
      bufs.coll sprites
    (r.2, { bufs with scan := scanBuf, coll := r.1 })
  else
    (sprites, { bufs with scan := scanBuf })

/-- DrawScalingSpriteScanline (Draw.c lines 663-699): scaling sprite
painter.  The source computes a flipped dstx but then blits from
dstrect.x1 regardless; the unused value is reproduced here. -/
def DrawScalingSpriteScanline (ctx : DrawCtx) (nsprite : Nat) (nscan : Int)
    (sprites : Nat → Sprite) (bufs : RenderBufs) : (Nat → Sprite) × RenderBufs :=
  let sprite := sprites nsprite
  let srcx0 := sprite.srcrect.x1
  let srcy0 := sprite.srcrect.y1 + (nscan - sprite.dstrect.y1) * sprite.dy
  let dstw := sprite.dstrect.x2 - sprite.dstrect.x1
  let fx := hasBit sprite.flags FLAG_FLIPX_BIT
  let srcx := if fx then int2fix sprite.infoW - srcx0 else srcx0
  let _dstx := if fx then sprite.dstrect.x2 else sprite.dstrect.x1
  let dx := if fx then -sprite.dx else sprite.dx
  let srcy := if hasBit sprite.flags FLAG_FLIPY_BIT then int2fix sprite.infoH - srcy0 else srcy0
  let srcFn : Int → Nat := fun k => sprite.pixels (fix2int srcy * sprite.pitch + k)
  let scanBuf := TLN_Blit true true srcFn sprite.palette bufs.scan sprite.dstrect.x1
    dstw dx srcx sprite.blend
  if sprite.do_collision then
    let r := DrawSpriteCollisionScaling nsprite srcFn sprite.dstrect.x1 dstw.toNat dx srcx
      bufs.coll sprites
    (r.2, { bufs with scan := scanBuf, coll := r.1 })
  else
    (sprites, { bufs with scan := scanBuf })

/-- A scheduler-facing layer painter: context, layer, scanline and the
scratch buffers, giving the priority return value of Draw.c, the
updated buffers and the updated layer (its mosaic buffer). -/
def PainterFn : Type :=
  DrawCtx → Layer → Int → RenderBufs → Bool × RenderBufs × Layer

/-- The flat tiled painter with its event trace dropped, as the
scheduler sees it through the painters dispatch table. -/
def drawLayerScanlineP : PainterFn := fun ctx layer nscan bufs =>
  let r := DrawLayerScanline ctx layer nscan bufs
  (r.1, r.2.1, r.2.2.1)

/-- The scaling tiled painter with its event trace dropped. -/
def drawLayerScanlineScalingP : PainterFn := fun ctx layer nscan bufs =>
  let r := DrawLayerScanlineScaling ctx layer nscan bufs
  (r.1, r.2.1, r.2.2.1)

/-- GetLayerDraw (Draw.c lines 1068-1078) composed with the painters
dispatch table (lines 1059-1065): tilemap layers use the tiled row,
bitmap layers the bitmap row, object layers the object row with only
the flat mode populated; anything else has no painter. -/
def GetLayerDraw (layer : Layer) : Option PainterFn :=
  if layer.tilemap.isSome then
    match layer.mode with
    | 0 => some drawLayerScanlineP
    | 1 => some drawLayerScanlineScalingP
    | 2 => some DrawLayerScanlineAffine
    | 3 => some DrawLayerScanlinePixelMapping
    | _ => none
  else if layer.bitmap.isSome then
    match layer.mode with
    | 0 => some DrawBitmapScanline
    | 1 => some DrawBitmapScanlineScaling
    | 2 => some DrawBitmapScanlineAffine
    | 3 => some DrawBitmapScanlinePixelMapping
    | _ => none
  else if layer.objects.isSome then
    match layer.mode with
    | 0 => some DrawLayerObjectScanline
    | _ => none
  else none

/-- A scheduler-facing sprite painter. -/
def SpriteFn : Type :=
  DrawCtx → Nat → Int → (Nat → Sprite) → RenderBufs → (Nat → Sprite) × RenderBufs

/-- GetSpriteDraw (Draw.c lines 1081-1084): the sprite row of the
painters table, with only the flat and scaling modes populated. -/
def GetSpriteDraw (mode : Nat) : Option SpriteFn :=
  match mode with
  | 0 => some DrawSpriteScanline
  | 1 => some DrawScalingSpriteScanline
  | _ => none

/-- A throwaway layer record used for out-of-range list reads. -/
def defaultLayer : Layer :=
  { ok := false, priority := false, dirty := false, mode := 0, tilemap := none,
    bitmap := none, objects := none, clipx1 := 0, clipy1 := 0, clipx2 := 0, clipy2 := 0,
    hstart := 0, vstart := 0, width := 0, height := 0, palette := none, blend := none,
    column := none, mosaicW := 0, mosaicH := 0, mosaicBuffer := fun _ => 0, dx := 0,
    dy := 0, xfactor := 0, transform := fun p => p, pixelMap := fun _ => ⟨0, 0⟩,
    scaledBlit := false }

/-- UpdateLayer (Engine.c, not part of src/) recomputes cached state
that this model stores directly; modelled as clearing the dirty flag. -/
def updateLayerIfDirty (edirty : Bool) (layer : Layer) : Layer :=
  if edirty ∨ layer.dirty then { layer with dirty := false } else layer

/-- One index of the non-priority background layer pass (Draw.c lines
71-91): update a dirty layer, then draw it when it is ok, not
whole-layer priority and the scanline meets its clip window; a true
return from the painter raises background_priority. -/
def layerStepFront (ctx : DrawCtx) (edirty : Bool) (line : Int) (c : Nat)
    (st : List Layer × RenderBufs × Bool) : List Layer × RenderBufs × Bool :=
  let (layers, bufs, bgp) := st
  let layer := layers.getD c defaultLayer
  if layer.ok then
    let layer := updateLayerIfDirty edirty layer
    let layers := layers.set c layer
    if ¬layer.priority ∧ layer.clipy1 ≤ line ∧ line ≤ layer.clipy2 then
      match GetLayerDraw layer with
      | some draw =>
        let r := draw ctx layer line bufs
        (layers.set c r.2.2, r.2.1, bgp ∨ r.1)
      | none => (layers, bufs, bgp)
    else (layers, bufs, bgp)
  else st

/-- The reverse-order loop of the non-priority layer pass: indices
numlayers-1 down to 0. -/
def layersLoopFront (ctx : DrawCtx) (edirty : Bool) (line : Int) :
    Nat → List Layer × RenderBufs × Bool → List Layer × RenderBufs × Bool
  | 0, st => st
  | c + 1, st => layersLoopFront ctx edirty line c (layerStepFront ctx edirty line c st)

/-- One index of the priority background layer pass (Draw.c lines
127-132): ok, whole-layer priority and clipped layers are drawn with
the painter return value discarded. -/
def layerStepPriority (ctx : DrawCtx) (line : Int) (c : Nat)
    (st : List Layer × RenderBufs) : List Layer × RenderBufs :=
  let (layers, bufs) := st
  let layer := layers.getD c defaultLayer
  if layer.ok ∧ layer.priority ∧ layer.clipy1 ≤ line ∧ line ≤ layer.clipy2 then
    match GetLayerDraw layer with
    | some draw =>
      let r := draw ctx layer line bufs
      (layers.set c r.2.2, r.2.1)
    | none => st
  else st

/-- The reverse-order loop of the priority layer pass. -/
def layersLoopPriority (ctx : DrawCtx) (line : Int) :
    Nat → List Layer × RenderBufs → List Layer × RenderBufs
  | 0, st => st
  | c + 1, st => layersLoopPriority ctx line c (layerStepPriority ctx line c st)

/-- One sprite of the non-priority sprite pass (Draw.c lines 100-121):
refresh world-space sprites (UpdateSprite, external to src/, is the
identity on the fields this model stores), then draw covered
non-priority sprites and raise sprite_priority for covered priority
ones. -/
def spriteStepFront (ctx : DrawCtx) (maskTop maskBottom exw eyw : Int) (edirty : Bool)
    (line : Int) (st : (Nat → Sprite) × RenderBufs × Bool) (idx : Nat) :
    (Nat → Sprite) × RenderBufs × Bool :=
  let (sprites, bufs, sprp) := st
  let s0 := sprites idx
  let s := if s0.world_space ∧ (s0.dirty ∨ edirty) then
      { s0 with x := s0.xworld - exw, y := s0.yworld - eyw, dirty := false }
    else s0
  let sprites := fun m => if m = idx then s else sprites m
  if check_sprite_coverage maskTop maskBottom s line then
    if ¬hasBit s.flags FLAG_PRIORITY_BIT then
      match GetSpriteDraw s.mode with
      | some draw =>
        let r := draw ctx idx line sprites bufs
        (r.1, r.2, sprp)
      | none => (sprites, bufs, sprp)
    else (sprites, bufs, true)
  else (sprites, bufs, sprp)

/-- The forward walk of the sprite list in the non-priority pass. -/
def spritesLoopFront (ctx : DrawCtx) (maskTop maskBottom exw eyw : Int) (edirty : Bool)
    (line : Int) (order : List Nat) (st : (Nat → Sprite) × RenderBufs × Bool) :
    (Nat → Sprite) × RenderBufs × Bool :=
  order.foldl (spriteStepFront ctx maskTop maskBottom exw eyw edirty line) st

/-- One sprite of the priority sprite pass (Draw.c lines 152-159). -/
def spriteStepPriority (ctx : DrawCtx) (maskTop maskBottom : Int) (line : Int)
    (st : (Nat → Sprite) × RenderBufs) (idx : Nat) : (Nat → Sprite) × RenderBufs :=
  let (sprites, bufs) := st
  let s := sprites idx
  if check_sprite_coverage maskTop maskBottom s line ∧ hasBit s.flags FLAG_PRIORITY_BIT then
    match GetSpriteDraw s.mode with
    | some draw => draw ctx idx line sprites bufs
    | none => st
  else st

/-- The forward walk of the sprite list in the priority pass. -/
def spritesLoopPriority (ctx : DrawCtx) (maskTop maskBottom : Int) (line : Int)
    (order : List Nat) (st : (Nat → Sprite) × RenderBufs) : (Nat → Sprite) × RenderBufs :=
  order.foldl (spriteStepPriority ctx maskTop maskBottom line) st

/-- The overlay copy loop of DrawScanline (Draw.c lines 138-146):
nonzero priority pixels of positions 0..n-1 replace the framebuffer
pixel, zero pixels leave it alone. -/
def overlayLoop (prio : Buffer) : Nat → Buffer → Buffer
  | 0, scan => scan
  | n + 1, scan =>
    let scan' := overlayLoop prio n scan
    if prio (n : Int) ≠ 0 then bput scan' (n : Int) (prio (n : Int)) else scan'

/-- The background fill step of DrawScanline (Draw.c lines 53-64):
bitmap background when both handles are set, else solid color when
nonzero, else nothing. -/
def backgroundStage (e : Engine) (line : Int) (scanBuf : Buffer) : Buffer :=
  match e.bgbitmap, e.bgpalette with
  | some bmp, some pal =>
    let size := if (e.fbWidth : Int) > bmp.width then bmp.width else (e.fbWidth : Int)
    if line < bmp.height then
      TLN_Blit false false (fun k => bmp.data (bitmapOfs bmp 0 line + k)) pal
        scanBuf 0 size 1 0 none
    else scanBuf
  | _, _ =>
    if e.bgcolor ≠ 0 then BlitColor scanBuf e.bgcolor e.fbWidth else scanBuf

/-- The mutable state of one scanline render: scratch buffers, layer
and sprite slots and the two priority flags. -/
structure MidState where
  bufs : RenderBufs
  layers : List Layer
  sprites : Nat → Sprite
  bgp : Bool
  sprp : Bool

/-- The scanline pipeline up to but not including the priority tile
overlay: background fill, non-priority layers, non-priority sprites,
priority layers (Draw.c lines 53-133). -/
def preOverlay (e : Engine) (line : Int) : MidState :=
  let ctx : DrawCtx := { width := e.fbWidth, pitch := e.pitch, palettes := e.palettes }
  let scan1 := backgroundStage e line (e.framebuffer line)
  let bufs0 : RenderBufs :=
    { scan := scan1, prio := e.priority, linebuf := e.linebuffer, coll := e.collision }
  let (layers1, bufs1, bgp) :=
    if e.numlayers > 0 then
      layersLoopFront ctx e.dirty line e.numlayers
        (e.layers, { bufs0 with prio := clearBytes bufs0.prio e.pitch }, false)
    else (e.layers, bufs0, false)
  let (sprites1, bufs2, sprp) :=
    if e.numsprites > 0 then
      spritesLoopFront ctx e.spriteMaskTop e.spriteMaskBottom e.xworld e.yworld e.dirty line
        e.spriteList (e.sprites, { bufs1 with coll := bfill bufs1.coll e.fbWidth 65535 }, false)
    else (e.sprites, bufs1, false)
  let (layers2, bufs3) :=
    if e.numlayers > 0 then layersLoopPriority ctx line e.numlayers (layers1, bufs2)
    else (layers1, bufs2)
  { bufs := bufs3, layers := layers2, sprites := sprites1, bgp := bgp, sprp := sprp }

/-- The full scanline pipeline: preOverlay, the priority tile overlay
when background_priority was raised, then the priority sprite pass
when sprite_priority was raised (Draw.c lines 53-160). -/
def renderLine (e : Engine) (line : Int) : MidState :=
  let ctx : DrawCtx := { width := e.fbWidth, pitch := e.pitch, palettes := e.palettes }
  let m := preOverlay e line
  let bufs4 :=
    if m.bgp then { m.bufs with scan := overlayLoop m.bufs.prio e.fbWidth m.bufs.scan }
    else m.bufs
  let (sprites2, bufs5) :=
    if m.sprp then
      spritesLoopPriority ctx e.spriteMaskTop e.spriteMaskBottom line e.spriteList
        (m.sprites, bufs4)
    else (m.sprites, bufs4)
  { m with bufs := bufs5, sprites := sprites2 }

/-- DrawScanline (Draw.c lines 38-166).  The raster callback is passed
explicitly because the engine state cannot store a function over
itself; the scheduler captures the line index before invoking it,
exactly as the source reads engine->line before the callback runs.
Returns the more-lines-remain flag and the updated engine. -/
def DrawScanline (cb : Option (Int → Engine → Engine)) (e0 : Engine) : Bool × Engine :=
  let line := e0.line
  let e := match cb with | some f => f line e0 | none => e0
  let m := renderLine e line
  let e' := { e with
    framebuffer := fun l => if l = line then m.bufs.scan else e.framebuffer l,
    priority := m.bufs.prio, linebuffer := m.bufs.linebuf, collision := m.bufs.coll,
    layers := m.layers, sprites := m.sprites, dirty := false, line := e.line + 1 }
  (decide (e'.line < (e.fbHeight : Int)), e')

/-- n successive DrawScanline calls without a raster callback. -/
def drawN : Nat → Engine → Engine
  | 0, e => e
  | n + 1, e => drawN n (DrawScanline none e).2

/-- One sprite of the collision recording performed inside the sprite
pass: the per-sprite arguments DrawSpriteScanline or
DrawScalingSpriteScanline hands to its collision recorder. -/
structure CollisionJob where
  id : Nat
  src : Int → Nat
  dstOfs : Int
  width : Nat
  dx : Int
  scaled : Bool
  srcx : Int

/-- Run one collision job through the recorder the matching sprite
painter calls. -/
def runCollisionJob (j : CollisionJob) (buf : Buffer) (sprites : Nat → Sprite) :
    Buffer × (Nat → Sprite) :=
  if j.scaled then DrawSpriteCollisionScaling j.id j.src j.dstOfs j.width j.dx j.srcx buf sprites
  else DrawSpriteCollision j.id j.src j.dstOfs j.width j.dx buf sprites

/-- The collision updates a scanline performs for a list of sprites in
draw order. -/
def spriteCollisionPass (jobs : List CollisionJob) (buf : Buffer) (sprites : Nat → Sprite) :
    Buffer × (Nat → Sprite) :=
  match jobs with
  | [] => (buf, sprites)
  | j :: rest =>
    let r := runCollisionJob j buf sprites
    spriteCollisionPass rest r.1 r.2

/-- The source sample index a collision job reads at destination step
i: the flat recorder walks the source pointer by dx, the scaling one
projects the fixed-point accumulator. -/
def jobSampleIndex (j : CollisionJob) (i : Nat) : Int :=
  if j.scaled then cdiv (j.srcx + (i : Int) * j.dx) (2 ^ FIXED_BITS) else (i : Int) * j.dx

/-- A collision job writes destination slot p when p falls in its span
and the sampled source pixel there is opaque. -/
def jobWrites (j : CollisionJob) (p : Int) : Prop :=
  ∃ i : Nat, i < j.width ∧ p = j.dstOfs + (i : Int) ∧ j.src (jobSampleIndex j i) ≠ 0

/-- A small concrete palette for concrete evaluations. -/
def wpal : Palette := ⟨fun n => n + 7⟩

/-- A concrete 1x1 tileset whose single pixel has palette index 5 and
whose color-key bit is false on every row. -/
def wts : Tileset :=
  { width := 1, height := 1, hshift := 0, vshift := 0, hmask := 0, vmask := 0,
    tiles := fun n => n, colorKey := fun _ => false, data := fun _ => 5, palette := wpal }

/-- A concrete non-empty tile without flags. -/
def wtile0 : Tile := { index := 1, tileset := 0, palette := 0, flags := 0 }

/-- A concrete non-empty tile carrying the PRIORITY flag. -/
def wtileP : Tile := { index := 1, tileset := 0, palette := 0, flags := 4096 }

/-- A concrete one-cell tilemap of plain tiles. -/
def wtilemap : Tilemap := { cols := 1, rows := 1, tiles := fun _ => wtile0, tilesets := fun _ => wts }

/-- A concrete one-cell tilemap of priority tiles. -/
def wtilemapP : Tilemap :=
  { cols := 1, rows := 1, tiles := fun _ => wtileP, tilesets := fun _ => wts }

/-- A concrete draw context for a one-pixel framebuffer. -/
def wctx : DrawCtx := { width := 1, pitch := 4, palettes := fun _ => none }

/-- Concrete all-zero scratch buffers. -/
def wbufs : RenderBufs :=
  { scan := fun _ => 0, prio := fun _ => 0, linebuf := fun _ => 0, coll := fun _ => 0 }

/-- A concrete flat tiled layer over the one-cell tilemap, with unit
fixed-point scaling factors so the scaling painter also advances. -/
def wlayerFlat : Layer :=
  { defaultLayer with
    ok := true
    tilemap := some wtilemap
    clipx2 := 1
    width := 4
    height := 4
    dx := 65536
    dy := 65536
    xfactor := 65536 }

/-- The same concrete layer in PIXEL_MAP mode. -/
def wlayerPM : Layer := { wlayerFlat with mode := 3 }

/-- A concrete flat tiled layer whose single tile is priority
flagged. -/
def wlayerPrio : Layer :=
  { defaultLayer with
    ok := true
    tilemap := some wtilemapP
    clipx2 := 1
    width := 4
    height := 4 }

/-- A throwaway sprite slot. -/
def defaultSprite : Sprite :=
  { srcrect := ⟨0, 0, 0, 0⟩, dstrect := ⟨0, 0, 0, 0⟩, infoW := 0, infoH := 0, pitch := 0,
    pixels := fun _ => 0, palette := wpal, blend := none, flags := 0, dx := 0, dy := 0,
    x := 0, y := 0, xworld := 0, yworld := 0, world_space := false, dirty := false,
    do_collision := false, collision := false, mode := 0 }

/-- A concrete engine with no layers and no sprites, one pixel wide
and two lines tall. -/
def wEngineEmpty : Engine :=
  { fbWidth := 1, fbHeight := 2, pitch := 4, framebuffer := fun _ _ => 0,
    priority := fun _ => 0, linebuffer := fun _ => 0, collision := fun _ => 0,
    palettes := fun _ => none, numlayers := 0, layers := [], numsprites := 0,
    sprites := fun _ => defaultSprite, spriteList := [], line := 0, dirty := false,
    bgcolor := 0, bgbitmap := none, bgpalette := none, spriteMaskTop := 0,
    spriteMaskBottom := 0, xworld := 0, yworld := 0 }

/-- A concrete one-line engine whose single layer holds a priority
tile. -/
def wEnginePrio : Engine := { wEngineEmpty with fbHeight := 1, numlayers := 1, layers := [wlayerPrio] }

/-- A concrete one-line engine whose single layer is a tiled PIXEL_MAP
layer. -/
def wEnginePM : Engine := { wEngineEmpty with fbHeight := 1, numlayers := 1, layers := [wlayerPM] }

/-- A concrete flat collision job for sprite 0, one opaque pixel at
destination 0. -/
def wjobA : CollisionJob :=
  { id := 0, src := fun _ => 1, dstOfs := 0, width := 1, dx := 1, scaled := false, srcx := 0 }

/-- A concrete scaling collision job for sprite 1, one opaque pixel at
destination 0. -/
def wjobB : CollisionJob :=
  { id := 1, src := fun _ => 1, dstOfs := 0, width := 1, dx := 65536, scaled := true, srcx := 0 }

/-- A concrete cleared collision buffer. -/
def wcollBuf : Buffer := fun _ => 65535

/-- The truncated remainder by a positive divisor is below it. -/
theorem tmod_lb (b h : Int) (hh : 0 < h) : -h < Int.tmod b h := by
  rcases le_or_lt 0 b with hb | hb
  · have := Int.tmod_nonneg h hb
    omega
  · have h2 : Int.tmod (-b) h = -Int.tmod b h := by
      rw [Int.tmod_def, Int.tmod_def, Int.neg_tdiv]
      ring
    have h4 := Int.tmod_lt_of_pos (-b) hh
    have h5 := Int.tmod_nonneg (a := -b) h (by omega)
    omega

/-- Wrapping a negative truncated remainder by adding the positive
divisor yields the Euclidean remainder. -/
theorem wrapTmod_eq_emod (b h : Int) (hh : 0 < h) :
    (if Int.tmod b h < 0 then h + Int.tmod b h else Int.tmod b h) = b % h := by
  have hub := Int.tmod_lt_of_pos b hh
  have hlb := tmod_lb b h hh
  have hd : b % h - Int.tmod b h = h * (Int.tdiv b h - b / h) := by
    rw [Int.emod_def, Int.tmod_def]
    ring
  have he1 := Int.emod_nonneg b (by omega : h ≠ 0)
  have he2 := Int.emod_lt_of_pos b hh
  set k := Int.tdiv b h - b / h with hk
  have hkb : -1 < k ∧ k < 2 := by
    constructor
    · by_contra hcon
      push_neg at hcon
      have : h * k ≤ h * (-1) := by
        exact mul_le_mul_of_nonneg_left hcon (by omega)
      omega
    · by_contra hcon
      push_neg at hcon
      have : h * 2 ≤ h * k := by
        exact mul_le_mul_of_nonneg_left hcon (by omega)
      omega
  have hk01 : k = 0 ∨ k = 1 := by omega
  rcases hk01 with hk0 | hk1
  · rw [hk0] at hd
    simp at hd
    omega
  · rw [hk1] at hd
    simp at hd
    omega

/-- Truncated remainder agrees across adding one positive divisor to a
non-negative dividend. -/
theorem tmod_add_self_nonneg (a h : Int) (ha : 0 ≤ a) (hh : 0 < h) :
    Int.tmod (h + a) h = Int.tmod a h := by
  rw [Int.tmod_eq_emod (by omega) (by omega), Int.tmod_eq_emod ha (by omega)]
  have he : h + a = a + h * 1 := by ring
  rw [he, Int.add_mul_emod_self_left]

/-- The truncated remainder by a positive divisor is non-negative
exactly when the dividend is non-negative or a multiple of the
divisor. -/
theorem tmod_nonneg_iff (a w : Int) (hw : 0 < w) :
    0 ≤ Int.tmod a w ↔ (0 ≤ a ∨ w ∣ a) := by
  have hneg : Int.tmod (-a) w = -Int.tmod a w := by
    rw [Int.tmod_def, Int.tmod_def, Int.neg_tdiv]
    ring
  constructor
  · intro h0
    rcases le_or_lt 0 a with ha | ha
    · exact Or.inl ha
    · have h1 := Int.tmod_nonneg w (by omega : (0 : Int) ≤ -a)
      rw [hneg] at h1
      have hd := Int.tmod_def a w
      exact Or.inr ⟨Int.tdiv a w, by omega⟩
  · rintro (ha | ⟨k, hk⟩)
    · exact Int.tmod_nonneg w ha
    · subst hk
      have hz : Int.tmod (w * k) w = 0 := by
        rw [Int.tmod_def, Int.mul_tdiv_cancel_left _ (by omega : w ≠ 0)]
        ring
      omega

/-- Counterexample to C4: with a negative scroll the flat painter
sampling positions are not wrapped into range.  At hstart = -1,
x = 0, layer width 4 the computed xpos is -1, and at vstart = -1,
nscan = 0, height 4 without a column array the computed ypos is -1. -/
theorem flat_scroll_range_cex :
    flatXpos (-1) 0 4 = -1 ∧ ¬(0 ≤ flatXpos (-1) 0 4) ∧
      flatYposNoColumn (-1) 0 4 = -1 ∧ ¬(0 ≤ flatYposNoColumn (-1) 0 4) := by
  constructor
  · decide
  · constructor
    · decide
    · constructor
      · decide
      · decide

/-- C4 as amended: only the column-offset ypos wraps negatives into
range, so it always satisfies 0 <= ypos < height; the flat xpos and
the column-free ypos take the C truncated remainder, which is always
below the dimension and is non-negative exactly when the sum being
reduced is non-negative or a whole multiple of the dimension, and is
strictly negative otherwise. -/
theorem flat_scroll_range_amended :
    (∀ v n c h : Int, 0 < h →
      0 ≤ flatYposColumn v n c h ∧ flatYposColumn v n c h < h) ∧
    (∀ hs x w : Int, 0 < w →
      flatXpos hs x w < w ∧
      (0 ≤ flatXpos hs x w ↔ (0 ≤ hs + x ∨ w ∣ hs + x))) ∧
    (∀ v n h : Int, 0 < h →
      flatYposNoColumn v n h < h ∧
      (0 ≤ flatYposNoColumn v n h ↔ (0 ≤ v + n ∨ h ∣ v + n))) := by
  refine ⟨?_, ?_, ?_⟩
  · intro v n c h hh
    have hw := wrapTmod_eq_emod (v + n + c) h hh
    have h1 := Int.emod_nonneg (v + n + c) (by omega : h ≠ 0)
    have h2 := Int.emod_lt_of_pos (v + n + c) hh
    unfold flatYposColumn cmod
    simp only []
    omega
  · intro hs x w hw
    unfold flatXpos cmod
    exact ⟨Int.tmod_lt_of_pos (hs + x) hw, tmod_nonneg_iff (hs + x) w hw⟩
  · intro v n h hh
    unfold flatYposNoColumn cmod
    exact ⟨Int.tmod_lt_of_pos (v + n) hh, tmod_nonneg_iff (v + n) h hh⟩

/-- Witness for the amended C4, at concrete scrolls including a
negative column-branch sum. -/
theorem flat_scroll_range_amended_witness :
    (0 ≤ flatYposColumn (-9) 2 1 4 ∧ flatYposColumn (-9) 2 1 4 < 4) ∧
      (flatXpos 3 1 4 < 4 ∧ (0 ≤ flatXpos 3 1 4 ↔ (0 ≤ (3 : Int) + 1 ∨ (4 : Int) ∣ 3 + 1))) ∧
      (flatYposNoColumn 3 2 4 < 4 ∧
        (0 ≤ flatYposNoColumn 3 2 4 ↔ (0 ≤ (3 : Int) + 2 ∨ (4 : Int) ∣ 3 + 2))) :=
  ⟨flat_scroll_range_amended.1 (-9) 2 1 4 (by decide),
    flat_scroll_range_amended.2.1 3 1 4 (by decide),
    flat_scroll_range_amended.2.2 3 2 4 (by decide)⟩

/-- The column-branch ypos is unchanged when vstart moves from 0 to
one full layer height. -/
theorem flatYposColumn_add_height (n c h : Int) (hh : 0 < h) :
    flatYposColumn h n c h = flatYposColumn 0 n c h := by
  unfold flatYposColumn cmod
  simp only []
  rw [wrapTmod_eq_emod _ _ hh, wrapTmod_eq_emod _ _ hh]
  have he : h + n + c = (0 + n + c) + h * 1 := by ring
  rw [he, Int.add_mul_emod_self_left]

/-- The column-free ypos is unchanged when vstart moves from 0 to one
full layer height, for non-negative scanlines. -/
theorem flatYposNoColumn_add_height (n h : Int) (hn : 0 ≤ n) (hh : 0 < h) :
    flatYposNoColumn h n h = flatYposNoColumn 0 n h := by
  unfold flatYposNoColumn cmod
  rw [tmod_add_self_nonneg n h hn hh, zero_add]

/-- The flat xpos is unchanged when hstart moves from 0 to one full
layer width, for non-negative clip origins. -/
theorem flatXpos_add_width (x w : Int) (hx : 0 ≤ x) (hw : 0 < w) :
    flatXpos w x w = flatXpos 0 x w := by
  unfold flatXpos cmod
  rw [tmod_add_self_nonneg x w hx hw, zero_add]

/-- C9: for the flat tiled painter, hstart = width renders the same
scanline as hstart = 0, and vstart = height the same as vstart = 0:
the return flag, all scratch buffers, the mosaic buffer and the
recorded blitter calls coincide. -/
theorem scroll_wrap_flat (ctx : DrawCtx) (layer : Layer) (nscan : Int) (bufs : RenderBufs)
    (hw : 0 < layer.width) (hh : 0 < layer.height) (hx : 0 ≤ layer.clipx1) (hn : 0 ≤ nscan) :
    ((DrawLayerScanline ctx { layer with hstart := layer.width } nscan bufs).1 =
        (DrawLayerScanline ctx { layer with hstart := 0 } nscan bufs).1 ∧
      (DrawLayerScanline ctx { layer with hstart := layer.width } nscan bufs).2.1 =
        (DrawLayerScanline ctx { layer with hstart := 0 } nscan bufs).2.1 ∧
      (DrawLayerScanline ctx { layer with hstart := layer.width } nscan bufs).2.2.1.mosaicBuffer =
        (DrawLayerScanline ctx { layer with hstart := 0 } nscan bufs).2.2.1.mosaicBuffer ∧
      (DrawLayerScanline ctx { layer with hstart := layer.width } nscan bufs).2.2.2 =
        (DrawLayerScanline ctx { layer with hstart := 0 } nscan bufs).2.2.2) ∧
    ((DrawLayerScanline ctx { layer with vstart := layer.height } nscan bufs).1 =
        (DrawLayerScanline ctx { layer with vstart := 0 } nscan bufs).1 ∧
      (DrawLayerScanline ctx { layer with vstart := layer.height } nscan bufs).2.1 =
        (DrawLayerScanline ctx { layer with vstart := 0 } nscan bufs).2.1 ∧
      (DrawLayerScanline ctx { layer with vstart := layer.height } nscan bufs).2.2.1.mosaicBuffer =
        (DrawLayerScanline ctx { layer with vstart := 0 } nscan bufs).2.2.1.mosaicBuffer ∧
      (DrawLayerScanline ctx { layer with vstart := layer.height } nscan bufs).2.2.2 =
        (DrawLayerScanline ctx { layer with vstart := 0 } nscan bufs).2.2.2) := by
  obtain ⟨ok, prio, dirty, mode, tm, bm, objs, cx1, cy1, cx2, cy2, hs, vs, w, h, pal,
    blend, col, mw, mh, mbuf, ldx, ldy, xf, tr, pm, sb⟩ := layer
  dsimp only at hw hh hx hn ⊢
  cases tm with
  | none => exact ⟨⟨rfl, rfl, rfl, rfl⟩, ⟨rfl, rfl, rfl, rfl⟩⟩
  | some tmap =>
    constructor
    · have hxpos : flatXpos w cx1 w = flatXpos 0 cx1 w := flatXpos_add_width cx1 w hx hw
      simp only [DrawLayerScanline, drawTiledFlatBody, blit_mosaic]
      rw [hxpos]
      split_ifs <;> exact ⟨rfl, rfl, rfl, rfl⟩
    · have hfn : layerYposFlat col h nscan h = layerYposFlat col 0 nscan h := by
        unfold layerYposFlat
        cases col with
        | none =>
          funext c
          exact flatYposNoColumn_add_height nscan h hn hh
        | some cf =>
          funext c
          exact flatYposColumn_add_height nscan (cf c) h hh
      simp only [DrawLayerScanline, drawTiledFlatBody, blit_mosaic]
      rw [hfn]
      split_ifs <;> exact ⟨rfl, rfl, rfl, rfl⟩

/-- Witness for C9: the scroll-wrap equalities at the concrete
one-cell layer, hypotheses discharged at the input. -/
theorem scroll_wrap_flat_witness :
    (DrawLayerScanline wctx { wlayerFlat with hstart := wlayerFlat.width } 0 wbufs).2.1 =
      (DrawLayerScanline wctx { wlayerFlat with hstart := 0 } 0 wbufs).2.1 ∧
    (DrawLayerScanline wctx { wlayerFlat with vstart := wlayerFlat.height } 0 wbufs).2.1 =
      (DrawLayerScanline wctx { wlayerFlat with vstart := 0 } 0 wbufs).2.1 :=
  ⟨(scroll_wrap_flat wctx wlayerFlat 0 wbufs (by decide) (by decide) (by decide)
      (by decide)).1.2.1,
    (scroll_wrap_flat wctx wlayerFlat 0 wbufs (by decide) (by decide) (by decide)
      (by decide)).2.2.1⟩

/-- C6: check_sprite_coverage returns true exactly when the scanline
falls in the destination rows, both right edges are non-negative and
the sprite mask window does not suppress a MASKED sprite on this
line. -/
theorem check_sprite_coverage_spec (maskTop maskBottom : Int) (s : Sprite) (nscan : Int) :
    check_sprite_coverage maskTop maskBottom s nscan = true ↔
      (s.dstrect.y1 ≤ nscan ∧ nscan < s.dstrect.y2 ∧ 0 ≤ s.dstrect.x2 ∧ 0 ≤ s.srcrect.x2 ∧
        ¬(hasBit s.flags FLAG_MASKED_BIT = true ∧ maskTop ≤ nscan ∧ nscan ≤ maskBottom)) := by
  unfold check_sprite_coverage
  split_ifs with h1 h2 h3
  · simp only [Bool.false_eq_true, false_iff]
    rintro ⟨hy1, hy2, -, -, -⟩
    omega
  · simp only [Bool.false_eq_true, false_iff]
    rintro ⟨-, -, hx, hs, -⟩
    omega
  · simp only [Bool.false_eq_true, false_iff]
    rintro ⟨-, -, -, -, hmask⟩
    exact hmask h3
  · simp only [true_iff]
    push_neg at h1 h2
    exact ⟨by omega, by omega, by omega, by omega, h3⟩

/-- C7: the flip and rotation transforms: FLIPX negates dx in every
branch; process_flip sets srcx to width-1 under FLIPX, ignoring the
incoming srcx, while the non-rotated branch of process_flip_rotation
sets srcx to width-srcx-1; FLIPY reflects srcy; and under ROTATE the
source coordinates are swapped and dx is scaled by the stride before
the FLIPX/FLIPY remapping acts in the rotated axis system. -/
theorem process_flip_rotation_spec (flags : Nat) (s : Tilescan) :
    ((process_flip flags s).dx = (if hasBit flags FLAG_FLIPX_BIT then -s.dx else s.dx)) ∧
    ((process_flip flags s).srcx = (if hasBit flags FLAG_FLIPX_BIT then s.width - 1 else s.srcx)) ∧
    ((process_flip flags s).srcy =
      (if hasBit flags FLAG_FLIPY_BIT then s.height - s.srcy - 1 else s.srcy)) ∧
    (hasBit flags FLAG_ROTATE_BIT = false →
      (process_flip_rotation flags s).dx = (if hasBit flags FLAG_FLIPX_BIT then -s.dx else s.dx) ∧
      (process_flip_rotation flags s).srcx =
        (if hasBit flags FLAG_FLIPX_BIT then s.width - s.srcx - 1 else s.srcx) ∧
      (process_flip_rotation flags s).srcy =
        (if hasBit flags FLAG_FLIPY_BIT then s.height - s.srcy - 1 else s.srcy)) ∧
    (hasBit flags FLAG_ROTATE_BIT = true →
      (process_flip_rotation flags s).dx =
        (if hasBit flags FLAG_FLIPX_BIT then -(s.dx * s.stride) else s.dx * s.stride) ∧
      (process_flip_rotation flags s).srcy =
        (if hasBit flags FLAG_FLIPX_BIT then s.height - s.srcx - 1 else s.srcx) ∧
      (process_flip_rotation flags s).srcx =
        (if hasBit flags FLAG_FLIPY_BIT then s.width - s.srcy - 1 else s.srcy)) := by
  unfold process_flip process_flip_rotation
  by_cases hx : hasBit flags FLAG_FLIPX_BIT <;>
    by_cases hy : hasBit flags FLAG_FLIPY_BIT <;>
      by_cases hr : hasBit flags FLAG_ROTATE_BIT <;>
        simp [hx, hy, hr]

/-- Every event the flat tile-span loop adds beyond its accumulator
names blitter index 1 and a non-empty tile. -/
theorem flatLoop_events (ctx : DrawCtx) (clipx2 : Int) (sb : Bool) (blend : Blend)
    (lp : Option Palette) (tm : Tilemap) (ts0 : Tileset) (yposOf : Int → Int) :
    ∀ (fuel : Nat) {x xtile srcx column : Int} {dst prio : Buffer} {priority : Bool}
      {events : List TileEvent} {ev : TileEvent},
      ev ∈ (drawTiledFlatLoop ctx clipx2 sb blend lp tm ts0 yposOf fuel x xtile srcx column
        dst prio priority events).2.2.2 →
      ev ∈ events ∨ (ev.keyedIndex = true ∧ ev.tileIndex ≠ 0) := by
  intro fuel
  induction fuel with
  | zero =>
    intro x xtile srcx column dst prio priority events ev hev
    simp only [drawTiledFlatLoop] at hev
    exact Or.inl hev
  | succ n ih =>
    intro x xtile srcx column dst prio priority events ev hev
    simp only [drawTiledFlatLoop] at hev
    split_ifs at hev
    all_goals
      first
      | exact Or.inl hev
      | (rcases ih hev with h | h
         · rcases List.mem_cons.mp h with h' | h'
           · subst h'
             exact Or.inr ⟨rfl, by assumption⟩
           · exact Or.inl h'
         · exact Or.inr h)
      | exact ih hev

/-- Every event the scaling tile-span loop adds beyond its accumulator
names the blitter selected by the color-key bit it recorded, and a
non-empty tile. -/
theorem scalingLoop_events (ctx : DrawCtx) (layer : Layer) (tm : Tilemap) (ts0 : Tileset)
    (nscan : Int) :
    ∀ (fuel : Nat) {x xtile srcx column fixX : Int} {dst prio : Buffer} {priority : Bool}
      {events : List TileEvent} {ev : TileEvent},
      ev ∈ (drawTiledScalingLoop ctx layer tm ts0 nscan fuel x xtile srcx column fixX
        dst prio priority events).2.2.2 →
      ev ∈ events ∨ (ev.keyedIndex = ev.colorKey ∧ ev.tileIndex ≠ 0) := by
  intro fuel
  induction fuel with
  | zero =>
    intro x xtile srcx column fixX dst prio priority events ev hev
    simp only [drawTiledScalingLoop] at hev
    exact Or.inl hev
  | succ n ih =>
    intro x xtile srcx column fixX dst prio priority events ev hev
    simp only [drawTiledScalingLoop] at hev
    split_ifs at hev
    all_goals
      first
      | exact Or.inl hev
      | (rcases ih hev with h | h
         · rcases List.mem_cons.mp h with h' | h'
           · subst h'
             exact Or.inr ⟨rfl, by assumption⟩
           · exact Or.inl h'
         · exact Or.inr h)
      | exact ih hev

/-- A store at another offset leaves a buffer cell unchanged. -/
theorem bput_ne {b : Buffer} {v : Nat} {q r : Int} (h : r ≠ q) :
    bput b q v r = b r := by
  simp [bput, h]

/-- The blitter inner loop writes only destination offsets
ofs + i .. ofs + i + n - 1. -/
theorem blitLoop_outside (scaled keyed : Bool) (src : Int → Nat) (pal : Nat → Nat)
    (blend : Blend) (ofs dx srcx : Int) :
    ∀ (n i : Nat) (dst : Buffer) (p : Int),
      (p < ofs + (i : Int) ∨ ofs + (i : Int) + (n : Int) ≤ p) →
      blitLoop scaled keyed src pal blend ofs dx srcx n i dst p = dst p := by
  intro n
  induction n with
  | zero =>
    intro i dst p hp
    rfl
  | succ m ih =>
    intro i dst p hp
    simp only [blitLoop]
    rw [ih (i + 1) _ p (by push_cast at hp ⊢; omega)]
    split_ifs <;> first
      | rfl
      | exact bput_ne (by push_cast at hp ⊢; omega)

/-- A blitter call writes only inside its destination span. -/
theorem TLN_Blit_outside (scaled keyed : Bool) (src : Int → Nat) (pal : Palette)
    (dst : Buffer) (ofs width dx srcx : Int) (blend : Blend) (p : Int)
    (hp : ¬(ofs ≤ p ∧ p < ofs + width)) :
    TLN_Blit scaled keyed src pal dst ofs width dx srcx blend p = dst p := by
  unfold TLN_Blit
  apply blitLoop_outside
  rcases le_or_lt 0 width with hw | hw
  · rw [Int.toNat_of_nonneg hw]
    omega
  · rw [Int.toNat_of_nonpos (by omega)]
    omega

/-- The flat tile-span loop keeps every event already in its
accumulator. -/
theorem flatLoop_events_mono (ctx : DrawCtx) (clipx2 : Int) (sb : Bool) (blend : Blend)
    (lp : Option Palette) (tm : Tilemap) (ts0 : Tileset) (yposOf : Int → Int) :
    ∀ (fuel : Nat) {x xtile srcx column : Int} {dst prio : Buffer} {priority : Bool}
      {events : List TileEvent} {ev : TileEvent},
      ev ∈ events →
      ev ∈ (drawTiledFlatLoop ctx clipx2 sb blend lp tm ts0 yposOf fuel x xtile srcx column
        dst prio priority events).2.2.2 := by
  intro fuel
  induction fuel with
  | zero =>
    intro x xtile srcx column dst prio priority events ev hev
    simp only [drawTiledFlatLoop]
    exact hev
  | succ n ih =>
    intro x xtile srcx column dst prio priority events ev hev
    simp only [drawTiledFlatLoop]
    split_ifs
    all_goals
      first
      | exact hev
      | exact ih (List.mem_cons_of_mem _ hev)
      | exact ih hev

/-- The flat tile-span loop leaves both buffers unchanged at any
position not covered by a recorded blit of a non-empty tile. -/
theorem flatLoop_frame (ctx : DrawCtx) (clipx2 : Int) (sb : Bool) (blend : Blend)
    (lp : Option Palette) (tm : Tilemap) (ts0 : Tileset) (yposOf : Int → Int) :
    ∀ (fuel : Nat) {x xtile srcx column : Int} {dst prio : Buffer} {priority : Bool}
      {events : List TileEvent} (p : Int),
      ((drawTiledFlatLoop ctx clipx2 sb blend lp tm ts0 yposOf fuel x xtile srcx column
          dst prio priority events).1 p = dst p ∧
        (drawTiledFlatLoop ctx clipx2 sb blend lp tm ts0 yposOf fuel x xtile srcx column
          dst prio priority events).2.1 p = prio p) ∨
      ∃ ev, ev ∈ (drawTiledFlatLoop ctx clipx2 sb blend lp tm ts0 yposOf fuel x xtile srcx
        column dst prio priority events).2.2.2 ∧
        ev.tileIndex ≠ 0 ∧ ev.x ≤ p ∧ p < ev.x + ev.width := by
  intro fuel
  induction fuel with
  | zero =>
    intro x xtile srcx column dst prio priority events p
    exact Or.inl ⟨rfl, rfl⟩
  | succ n ih =>
    intro x xtile srcx column dst prio priority events p
    simp only [drawTiledFlatLoop]
    by_cases h1 : x < clipx2
    · rw [if_pos h1]
      by_cases hx1 : x + (ts0.width - srcx) > clipx2
      · simp only [if_pos hx1]
        by_cases hc : x ≤ p ∧ p < x + (clipx2 - x)
        · split_ifs <;>
            first
            | exact ih p
            | exact Or.inr ⟨_, flatLoop_events_mono ctx clipx2 sb blend lp tm ts0 yposOf n
                (List.mem_cons_self _ _), by assumption, hc.1, hc.2⟩
        · split_ifs <;>
            first
            | exact ih p
            | (rcases ih p with ⟨hd, hpr⟩ | ⟨ev, hmem, hev⟩
               · first
                 | (refine Or.inl ⟨hd, ?_⟩
                    rw [hpr]
                    exact TLN_Blit_outside _ _ _ _ _ _ _ _ _ _ _ hc)
                 | (refine Or.inl ⟨?_, hpr⟩
                    rw [hd]
                    exact TLN_Blit_outside _ _ _ _ _ _ _ _ _ _ _ hc)
               · exact Or.inr ⟨ev, hmem, hev⟩)
      · simp only [if_neg hx1]
        by_cases hc : x ≤ p ∧ p < x + (x + (ts0.width - srcx) - x)
        · split_ifs <;>
            first
            | exact ih p
            | exact Or.inr ⟨_, flatLoop_events_mono ctx clipx2 sb blend lp tm ts0 yposOf n
                (List.mem_cons_self _ _), by assumption, hc.1, hc.2⟩
        · split_ifs <;>
            first
            | exact ih p
            | (rcases ih p with ⟨hd, hpr⟩ | ⟨ev, hmem, hev⟩
               · first
                 | (refine Or.inl ⟨hd, ?_⟩
                    rw [hpr]
                    exact TLN_Blit_outside _ _ _ _ _ _ _ _ _ _ _ hc)
                 | (refine Or.inl ⟨?_, hpr⟩
                    rw [hd]
                    exact TLN_Blit_outside _ _ _ _ _ _ _ _ _ _ _ hc)
               · exact Or.inr ⟨ev, hmem, hev⟩)
    · rw [if_neg h1]
      exact Or.inl ⟨rfl, rfl⟩

/-- The affine per-pixel loop leaves the destination unchanged at any
position whose stepped sample does not hit a non-empty cell. -/
theorem affineLoop_frame (layer : Layer) (tm : Tilemap) (ts0 : Tileset) (dx dy : Int) :
    ∀ (n : Nat) {dstIdx x1 y1 : Int} {dst : Buffer} (p : Int),
      drawTiledAffineLoop layer tm ts0 dx dy n dstIdx x1 y1 dst p = dst p ∨
      ∃ k : Nat, k < n ∧ p = dstIdx + (k : Int) ∧
        (affineTileAt layer tm ts0 (x1 + (k : Int) * dx) (y1 + (k : Int) * dy)).index ≠ 0 := by
  intro n
  induction n with
  | zero =>
    intro dstIdx x1 y1 dst p
    exact Or.inl rfl
  | succ m ih =>
    intro dstIdx x1 y1 dst p
    simp only [drawTiledAffineLoop]
    split_ifs with h1 h2
    · by_cases hpd : p = dstIdx
      · refine Or.inr ⟨0, by omega, by simpa using hpd, ?_⟩
        simpa using h1
      · rcases @ih (dstIdx + 1) (x1 + dx) (y1 + dy) _ p with
          hd | ⟨k, hk, hpk, hidx⟩
        · refine Or.inl ?_
          rw [hd]
          exact bput_ne hpd
        · refine Or.inr ⟨k + 1, by omega, by push_cast; omega, ?_⟩
          have hx : x1 + dx + (k : Int) * dx = x1 + ((k : Int) + 1) * dx := by ring
          have hy : y1 + dy + (k : Int) * dy = y1 + ((k : Int) + 1) * dy := by ring
          rw [hx, hy] at hidx
          push_cast
          exact hidx
    · by_cases hpd : p = dstIdx
      · refine Or.inr ⟨0, by omega, by simpa using hpd, ?_⟩
        simpa using h1
      · rcases @ih (dstIdx + 1) (x1 + dx) (y1 + dy) _ p with
          hd | ⟨k, hk, hpk, hidx⟩
        · refine Or.inl ?_
          rw [hd]
          exact bput_ne hpd
        · refine Or.inr ⟨k + 1, by omega, by push_cast; omega, ?_⟩
          have hx : x1 + dx + (k : Int) * dx = x1 + ((k : Int) + 1) * dx := by ring
          have hy : y1 + dy + (k : Int) * dy = y1 + ((k : Int) + 1) * dy := by ring
          rw [hx, hy] at hidx
          push_cast
          exact hidx
    · rcases @ih (dstIdx + 1) (x1 + dx) (y1 + dy) dst p with
        hd | ⟨k, hk, hpk, hidx⟩
      · exact Or.inl hd
      · refine Or.inr ⟨k + 1, by omega, by push_cast; omega, ?_⟩
        have hx : x1 + dx + (k : Int) * dx = x1 + ((k : Int) + 1) * dx := by ring
        have hy : y1 + dy + (k : Int) * dy = y1 + ((k : Int) + 1) * dy := by ring
        rw [hx, hy] at hidx
        push_cast
        exact hidx

/-- C8: empty tiles are never painted or sampled.  Every position the
flat painter body changes, in the scanline buffer or the priority
overlay, is covered by a recorded blit of a tile with nonzero index;
every recorded blit, which is the only place tile pixel data is
sampled, names a nonzero tile index; and every position the affine
per-pixel loop changes samples a cell with nonzero index. -/
theorem empty_tile_no_writes :
    (∀ (ctx : DrawCtx) (layer : Layer) (tilemap : Tilemap) (nscan : Int) (dst prio : Buffer)
      (p : Int),
      ((drawTiledFlatBody ctx layer tilemap nscan dst prio).1 p ≠ dst p ∨
        (drawTiledFlatBody ctx layer tilemap nscan dst prio).2.1 p ≠ prio p) →
      ∃ ev, ev ∈ (drawTiledFlatBody ctx layer tilemap nscan dst prio).2.2.2 ∧
        ev.tileIndex ≠ 0 ∧ ev.x ≤ p ∧ p < ev.x + ev.width) ∧
    (∀ (ctx : DrawCtx) (layer : Layer) (tilemap : Tilemap) (nscan : Int) (dst prio : Buffer)
      (ev : TileEvent),
      ev ∈ (drawTiledFlatBody ctx layer tilemap nscan dst prio).2.2.2 → ev.tileIndex ≠ 0) ∧
    (∀ (layer : Layer) (tm : Tilemap) (ts0 : Tileset) (dx dy : Int) (n : Nat)
      (dstIdx x1 y1 : Int) (dst : Buffer) (p : Int),
      drawTiledAffineLoop layer tm ts0 dx dy n dstIdx x1 y1 dst p ≠ dst p →
      ∃ k : Nat, k < n ∧ p = dstIdx + (k : Int) ∧
        (affineTileAt layer tm ts0 (x1 + (k : Int) * dx) (y1 + (k : Int) * dy)).index ≠ 0) := by
  refine ⟨?_, ?_, ?_⟩
  · intro ctx layer tilemap nscan dst prio p hp
    unfold drawTiledFlatBody at hp ⊢
    rcases @flatLoop_frame ctx layer.clipx2 layer.scaledBlit layer.blend layer.palette
        tilemap (tilemap.tilesets 0)
        (layerYposFlat layer.column layer.vstart nscan layer.height)
        ((layer.clipx2 - layer.clipx1).toNat + 1)
        layer.clipx1
        (sar (flatXpos layer.hstart layer.clipx1 layer.width) (tilemap.tilesets 0).hshift)
        (bandMask (flatXpos layer.hstart layer.clipx1 layer.width)
          (tilemap.tilesets 0).hmask)
        (cmod layer.clipx1 (tilemap.tilesets 0).width)
        dst prio false [] p with
      ⟨hd, hpr⟩ | hcov
    · rcases hp with h | h
      · exact absurd hd h
      · exact absurd hpr h
    · exact hcov
  · intro ctx layer tilemap nscan dst prio ev hev
    unfold drawTiledFlatBody at hev
    rcases flatLoop_events _ _ _ _ _ _ _ _ _ hev with h | h
    · simp at h
    · exact h.2
  · intro layer tm ts0 dx dy n dstIdx x1 y1 dst p hp
    rcases @affineLoop_frame layer tm ts0 dx dy n dstIdx x1 y1 dst p with hd | hcov
    · exact absurd hd hp
    · exact hcov

/-- Witness for C8: the one-cell flat body changes pixel 0, and the
theorem yields the covering nonzero-tile blit; the affine loop
changes pixel 0 and the theorem yields the sampled nonzero cell. -/
theorem empty_tile_no_writes_witness :
    (∃ ev, ev ∈ (drawTiledFlatBody wctx wlayerFlat wtilemap 0 (fun _ => 0)
        (fun _ => 0)).2.2.2 ∧ ev.tileIndex ≠ 0 ∧ ev.x ≤ 0 ∧ 0 < ev.x + ev.width) ∧
    (∃ k : Nat, k < 1 ∧ (0 : Int) = 0 + (k : Int) ∧
      (affineTileAt wlayerFlat wtilemap wts (0 + (k : Int) * 0) (0 + (k : Int) * 0)).index ≠ 0) :=
  ⟨empty_tile_no_writes.1 wctx wlayerFlat wtilemap 0 (fun _ => 0) (fun _ => 0) 0
      (Or.inl (by decide)),
    empty_tile_no_writes.2.2 wlayerFlat wtilemap wts 0 0 1 0 0 0 (fun _ => 0) 0 (by decide)⟩

/-- The collision loop never touches destination slots below its
cursor. -/
theorem collisionLoop_lower (f : Int → Int) (ns : Nat) (src : Int → Nat) (dx : Int) :
    ∀ (n : Nat) {acc dstOfs : Int} {buf : Buffer} {spr : Nat → Sprite} (p : Int),
      p < dstOfs →
      (collisionLoop f ns src acc dstOfs dx n buf spr).1 p = buf p := by
  intro n
  induction n with
  | zero =>
    intro acc dstOfs buf spr p hp
    rfl
  | succ m ih =>
    intro acc dstOfs buf spr p hp
    simp only [collisionLoop]
    rw [ih p (by omega)]
    split_ifs <;> first | exact bput_ne (by omega) | rfl

/-- An opaque sample inside the loop span forces its slot to the
recorder id, reduced mod 2^16. -/
theorem collisionLoop_write (f : Int → Int) (ns : Nat) (src : Int → Nat) (dx : Int) :
    ∀ (n i : Nat) {acc dstOfs : Int} {buf : Buffer} {spr : Nat → Sprite},
      i < n → src (f (acc + (i : Int) * dx)) ≠ 0 →
      (collisionLoop f ns src acc dstOfs dx n buf spr).1 (dstOfs + (i : Int)) = ns % 65536 := by
  intro n
  induction n with
  | zero =>
    intro i acc dstOfs buf spr hi hs
    omega
  | succ m ih =>
    intro i acc dstOfs buf spr hi hs
    simp only [collisionLoop]
    cases i with
    | zero =>
      have hs' : src (f acc) ≠ 0 := by simpa using hs
      simp only [Nat.cast_zero, add_zero]
      rw [collisionLoop_lower f ns src dx m dstOfs (by omega)]
      rw [if_pos hs']
      simp [bput]
    | succ j =>
      have h2 : acc + dx + (j : Int) * dx = acc + (((j : Nat) : Int) + 1) * dx := by ring
      have hs2 := hs
      push_cast at hs2
      have hs' : src (f (acc + dx + (j : Int) * dx)) ≠ 0 := by
        rw [h2]
        exact hs2
      push_cast
      rw [show (dstOfs + ((j : Int) + 1) : Int) = dstOfs + 1 + (j : Int) by ring]
      exact ih j (by omega) hs'

/-- A fully transparent span leaves a slot unchanged. -/
theorem collisionLoop_skip (f : Int → Int) (ns : Nat) (src : Int → Nat) (dx : Int) :
    ∀ (n : Nat) {acc dstOfs : Int} {buf : Buffer} {spr : Nat → Sprite} (p : Int),
      (∀ i : Nat, i < n → p = dstOfs + (i : Int) → src (f (acc + (i : Int) * dx)) = 0) →
      (collisionLoop f ns src acc dstOfs dx n buf spr).1 p = buf p := by
  intro n
  induction n with
  | zero =>
    intro acc dstOfs buf spr p hall
    rfl
  | succ m ih =>
    intro acc dstOfs buf spr p hall
    simp only [collisionLoop]
    have hrec : ∀ i : Nat, i < m → p = dstOfs + 1 + (i : Int) →
        src (f (acc + dx + (i : Int) * dx)) = 0 := by
      intro i hi hpi
      have h2 : acc + dx + (i : Int) * dx = acc + (((i : Nat) : Int) + 1) * dx := by ring
      rw [h2]
      have hcall := hall (i + 1) (by omega) (by push_cast; omega)
      push_cast at hcall
      exact hcall
    rw [ih p hrec]
    by_cases hpd : p = dstOfs
    · have h0 := hall 0 (by omega) (by simpa using hpd)
      have h0' : src (f acc) = 0 := by simpa using h0
      split_ifs with hs hb
      · exact absurd h0' hs
      · exact absurd h0' hs
      · rfl
    · split_ifs <;> first | exact bput_ne hpd | rfl

/-- Collision flags are only ever raised, never cleared. -/
theorem collisionLoop_mono (f : Int → Int) (ns : Nat) (src : Int → Nat) (dx : Int) :
    ∀ (n : Nat) {acc dstOfs : Int} {buf : Buffer} {spr : Nat → Sprite} (m : Nat),
      (spr m).collision = true →
      ((collisionLoop f ns src acc dstOfs dx n buf spr).2 m).collision = true := by
  intro n
  induction n with
  | zero =>
    intro acc dstOfs buf spr m hm
    exact hm
  | succ k ih =>
    intro acc dstOfs buf spr m hm
    simp only [collisionLoop]
    split_ifs with h1 h2
    · apply ih
      simp only [setCollision]
      split_ifs <;> first | rfl | exact hm
    · exact ih m hm
    · exact ih m hm

/-- An opaque sample over an occupied slot raises the collision flag
of the recorder and of the occupant. -/
theorem collisionLoop_fire (f : Int → Int) (ns : Nat) (src : Int → Nat) (dx : Int) :
    ∀ (n i : Nat) {acc dstOfs : Int} {buf : Buffer} {spr : Nat → Sprite},
      i < n → src (f (acc + (i : Int) * dx)) ≠ 0 → buf (dstOfs + (i : Int)) ≠ 65535 →
      ((collisionLoop f ns src acc dstOfs dx n buf spr).2 ns).collision = true ∧
        ((collisionLoop f ns src acc dstOfs dx n buf spr).2
          (buf (dstOfs + (i : Int)))).collision = true := by
  intro n
  induction n with
  | zero =>
    intro i acc dstOfs buf spr hi hs hb
    omega
  | succ m ih =>
    intro i acc dstOfs buf spr hi hs hb
    simp only [collisionLoop]
    cases i with
    | zero =>
      have hs' : src (f acc) ≠ 0 := by simpa using hs
      have hb' : buf dstOfs ≠ 65535 := by simpa using hb
      simp only [Nat.cast_zero, add_zero]
      rw [if_pos hs', if_pos hb']
      constructor
      · apply collisionLoop_mono
        simp only [setCollision]
        split_ifs <;> rfl
      · apply collisionLoop_mono
        simp only [setCollision]
        split_ifs <;> rfl
    | succ j =>
      have h2 : acc + dx + (j : Int) * dx = acc + (((j : Nat) : Int) + 1) * dx := by ring
      have hs2 := hs
      push_cast at hs2
      have hs' : src (f (acc + dx + (j : Int) * dx)) ≠ 0 := by
        rw [h2]
        exact hs2
      have hb2 := hb
      push_cast at hb2
      have harr : dstOfs + 1 + (j : Int) = dstOfs + ((j : Int) + 1) := by ring
      have hb' : buf (dstOfs + 1 + (j : Int)) ≠ 65535 := by
        rw [harr]
        exact hb2
      split_ifs with h1 h2b
      · have hrec := @ih j (acc + dx) (dstOfs + 1)
          (bput buf dstOfs (ns % 65536))
          (setCollision (setCollision spr ns) (buf dstOfs)) (by omega) hs'
          (by rw [bput_ne (by omega)]; exact hb')
        refine ⟨hrec.1, ?_⟩
        rw [show bput buf dstOfs (ns % 65536) (dstOfs + 1 + (j : Int)) =
            buf (dstOfs + 1 + (j : Int)) from bput_ne (by omega), harr] at hrec
        push_cast
        exact hrec.2
      · have hrec := @ih j (acc + dx) (dstOfs + 1)
          (bput buf dstOfs (ns % 65536)) spr (by omega) hs'
          (by rw [bput_ne (by omega)]; exact hb')
        refine ⟨hrec.1, ?_⟩
        rw [show bput buf dstOfs (ns % 65536) (dstOfs + 1 + (j : Int)) =
            buf (dstOfs + 1 + (j : Int)) from bput_ne (by omega), harr] at hrec
        push_cast
        exact hrec.2
      · have hrec := @ih j (acc + dx) (dstOfs + 1) buf spr (by omega) hs' hb'
        refine ⟨hrec.1, ?_⟩
        rw [harr] at hrec
        push_cast
        exact hrec.2

/-- Running a collision job is one call of the matching recorder,
expressed through the shared loop. -/
theorem runCollisionJob_eq (j : CollisionJob) (buf : Buffer) (spr : Nat → Sprite) :
    runCollisionJob j buf spr =
      collisionLoop (fun a => if j.scaled then cdiv a (2 ^ FIXED_BITS) else a) j.id j.src
        (if j.scaled then j.srcx else 0) j.dstOfs j.dx j.width buf spr := by
  unfold runCollisionJob DrawSpriteCollision DrawSpriteCollisionScaling
  split_ifs with h <;> simp [h]

/-- The job sample index agrees with the loop sample expression. -/
theorem jobSampleIndex_eq (j : CollisionJob) (i : Nat) :
    jobSampleIndex j i =
      (fun a => if j.scaled then cdiv a (2 ^ FIXED_BITS) else a)
        ((if j.scaled then j.srcx else 0) + (i : Int) * j.dx) := by
  unfold jobSampleIndex
  split_ifs with h <;> simp [h]

/-- The slot a collision job leaves at p: its id mod 2^16 when it
writes p, the previous content otherwise. -/
theorem runJob_slot (j : CollisionJob) (buf : Buffer) (spr : Nat → Sprite) (p : Int) :
    (jobWrites j p → (runCollisionJob j buf spr).1 p = j.id % 65536) ∧
    (¬jobWrites j p → (runCollisionJob j buf spr).1 p = buf p) := by
  rw [runCollisionJob_eq]
  constructor
  · rintro ⟨i, hi, hpi, hs⟩
    subst hpi
    have hs' := hs
    rw [jobSampleIndex_eq] at hs'
    exact collisionLoop_write _ j.id j.src j.dx j.width i hi hs'
  · intro hnw
    apply collisionLoop_skip
    intro i hi hpi
    by_contra hne
    refine hnw ⟨i, hi, hpi, ?_⟩
    rw [jobSampleIndex_eq]
    exact hne

/-- After a collision pass over a cleared buffer region, a slot still
holding the sentinel was written by no job. -/
theorem pass_sentinel (p : Int) :
    ∀ (jobs : List CollisionJob) (buf : Buffer) (spr : Nat → Sprite),
      (∀ j ∈ jobs, j.id < 65535) →
      (spriteCollisionPass jobs buf spr).1 p = 65535 →
      buf p = 65535 ∧ ∀ j ∈ jobs, ¬jobWrites j p := by
  intro jobs
  induction jobs with
  | nil =>
    intro buf spr hids hslot
    exact ⟨hslot, by simp⟩
  | cons j rest ih =>
    intro buf spr hids hslot
    have hslot' : (spriteCollisionPass rest (runCollisionJob j buf spr).1
        (runCollisionJob j buf spr).2).1 p = 65535 := hslot
    obtain ⟨hstep, hrest⟩ := ih _ _ (fun k hk => hids k (List.mem_cons_of_mem _ hk)) hslot'
    by_cases hw : jobWrites j p
    · exfalso
      rw [(runJob_slot j buf spr p).1 hw] at hstep
      have hj := hids j (List.mem_cons_self _ _)
      omega
    · refine ⟨?_, ?_⟩
      · rw [(runJob_slot j buf spr p).2 hw] at hstep
        exact hstep
      · intro k hk
        rcases List.mem_cons.mp hk with hkj | hkr
        · subst hkj
          exact hw
        · exact hrest k hkr

/-- C3: two sprites with collision enabled whose opaque pixels land on
the same destination x, recorded in draw order, both end the scanline
with their collision flags raised, and the collision slot at x holds
the id of the sprite recorded later; and a slot still equal to 0xFFFF
after the pass means no sprite wrote there. -/
theorem sprite_collision_spec :
    (∀ (a b : CollisionJob) (buf : Buffer) (spr : Nat → Sprite) (x : Int) (ia ib : Nat),
      a.id < 65535 → b.id < 65535 →
      ia < a.width → x = a.dstOfs + (ia : Int) → a.src (jobSampleIndex a ia) ≠ 0 →
      ib < b.width → x = b.dstOfs + (ib : Int) → b.src (jobSampleIndex b ib) ≠ 0 →
      ((spriteCollisionPass [a, b] buf spr).2 a.id).collision = true ∧
        ((spriteCollisionPass [a, b] buf spr).2 b.id).collision = true ∧
        (spriteCollisionPass [a, b] buf spr).1 x = b.id) ∧
    (∀ (jobs : List CollisionJob) (spr : Nat → Sprite) (p : Int),
      (∀ j ∈ jobs, j.id < 65535) →
      (spriteCollisionPass jobs (fun _ => 65535) spr).1 p = 65535 →
      ∀ j ∈ jobs, ¬jobWrites j p) := by
  constructor
  · intro a b buf spr x ia ib hA hB hia hxa hsa hib hxb hsb
    have hpass : spriteCollisionPass [a, b] buf spr =
        runCollisionJob b (runCollisionJob a buf spr).1 (runCollisionJob a buf spr).2 := rfl
    have hbufA : (runCollisionJob a buf spr).1 x = a.id := by
      rw [(runJob_slot a buf spr x).1 ⟨ia, hia, hxa, hsa⟩]
      exact Nat.mod_eq_of_lt (by omega)
    have hsb' := hsb
    rw [jobSampleIndex_eq] at hsb'
    have hbne : (runCollisionJob a buf spr).1 (b.dstOfs + (ib : Int)) ≠ 65535 := by
      rw [← hxb, hbufA]
      omega
    have hfire := @collisionLoop_fire
      (fun v => if b.scaled then cdiv v (2 ^ FIXED_BITS) else v) b.id b.src b.dx
      b.width ib (if b.scaled then b.srcx else 0) b.dstOfs
      (runCollisionJob a buf spr).1 (runCollisionJob a buf spr).2
      hib hsb' hbne
    rw [← runCollisionJob_eq] at hfire
    have hbufAx : (runCollisionJob a buf spr).1 (b.dstOfs + (ib : Int)) = a.id := by
      rw [← hxb]
      exact hbufA
    rw [hbufAx] at hfire
    refine ⟨?_, ?_, ?_⟩
    · rw [hpass]
      exact hfire.2
    · rw [hpass]
      exact hfire.1
    · rw [hpass, (runJob_slot b _ _ x).1 ⟨ib, hib, hxb, hsb⟩]
      exact Nat.mod_eq_of_lt (by omega)
  · intro jobs spr p hids hslot
    exact (pass_sentinel p jobs _ spr hids hslot).2

/-- Witness for C3: the flat job for sprite 0 and the scaling job for
sprite 1 both opaque at destination 0; both flags raise and the slot
holds id 1, with all hypotheses discharged at the concrete jobs. -/
theorem sprite_collision_spec_witness :
    ((spriteCollisionPass [wjobA, wjobB] wcollBuf (fun _ => defaultSprite)).2
        wjobA.id).collision = true ∧
      ((spriteCollisionPass [wjobA, wjobB] wcollBuf (fun _ => defaultSprite)).2
        wjobB.id).collision = true ∧
      (spriteCollisionPass [wjobA, wjobB] wcollBuf (fun _ => defaultSprite)).1 0 = wjobB.id :=
  sprite_collision_spec.1 wjobA wjobB wcollBuf (fun _ => defaultSprite) 0 0 0
    (by decide) (by decide) (by decide) (by decide) (by decide) (by decide) (by decide)
    (by decide)

/-- Pointwise value of the overlay copy loop. -/
theorem overlayLoop_get (prio : Buffer) :
    ∀ (w : Nat) (scanBuf : Buffer) (x : Int),
      overlayLoop prio w scanBuf x =
        if 0 ≤ x ∧ x < (w : Int) ∧ prio x ≠ 0 then prio x else scanBuf x := by
  intro w
  induction w with
  | zero =>
    intro scanBuf x
    simp only [overlayLoop]
    rw [if_neg]
    rintro ⟨h1, h2, -⟩
    push_cast at h2
    omega
  | succ n ih =>
    intro scanBuf x
    simp only [overlayLoop]
    by_cases hpn : prio (n : Int) ≠ 0
    · rw [if_pos hpn]
      by_cases hx : x = (n : Int)
      · subst hx
        rw [show bput (overlayLoop prio n scanBuf) (n : Int) (prio (n : Int)) (n : Int) =
            prio (n : Int) from by simp [bput]]
        rw [if_pos ⟨by omega, by push_cast; omega, hpn⟩]
      · rw [bput_ne hx, ih]
        by_cases hcond : 0 ≤ x ∧ x < (n : Int) ∧ prio x ≠ 0
        · rw [if_pos hcond, if_pos ⟨hcond.1, by push_cast; omega, hcond.2.2⟩]
        · rw [if_neg hcond, if_neg]
          rintro ⟨h1, h2, h3⟩
          apply hcond
          refine ⟨h1, ?_, h3⟩
          push_cast at h2 ⊢
          omega
    · rw [if_neg hpn]
      push_neg at hpn
      rw [ih]
      by_cases hcond : 0 ≤ x ∧ x < (n : Int) ∧ prio x ≠ 0
      · rw [if_pos hcond, if_pos ⟨hcond.1, by push_cast; omega, hcond.2.2⟩]
      · rw [if_neg hcond, if_neg]
        rintro ⟨h1, h2, h3⟩
        apply hcond
        refine ⟨h1, ?_, h3⟩
        by_cases hx : x = (n : Int)
        · subst hx
          exact absurd hpn h3
        · push_cast at h2 ⊢
          omega

/-- C5: the priority tile overlay copies every nonzero priority-buffer
pixel of the scanline over the framebuffer row and leaves the row
unchanged at zero pixels; consequently, when the front passes raised
background_priority and no covered sprite carries PRIORITY, the
rendered pixel at any nonzero overlay position equals the overlay
pixel, over whatever the non-priority sprites drew there. -/
theorem priority_overlay_spec :
    (∀ (prio scanBuf : Buffer) (w : Nat) (x : Int),
      overlayLoop prio w scanBuf x =
        if 0 ≤ x ∧ x < (w : Int) ∧ prio x ≠ 0 then prio x else scanBuf x) ∧
    (∀ (e : Engine) (x : Int),
      0 ≤ x → x < (e.fbWidth : Int) →
      (preOverlay e e.line).bgp = true →
      (preOverlay e e.line).sprp = false →
      (preOverlay e e.line).bufs.prio x ≠ 0 →
      (DrawScanline none e).2.framebuffer e.line x = (preOverlay e e.line).bufs.prio x) := by
  refine ⟨fun prio s w x => overlayLoop_get prio w s x, ?_⟩
  intro e x h0 hW hbgp hsprp hprio
  have h1 : (DrawScanline none e).2.framebuffer e.line = (renderLine e e.line).bufs.scan := by
    show (fun l => if l = e.line then (renderLine e e.line).bufs.scan else e.framebuffer l)
        e.line = (renderLine e e.line).bufs.scan
    simp
  rw [h1]
  simp only [renderLine, hbgp, hsprp, eq_self_iff_true, if_true, Bool.false_eq_true, if_false]
  rw [overlayLoop_get]
  rw [if_pos ⟨h0, hW, hprio⟩]

/-- Witness for C5: the one-line engine with a priority tile; the
front pass raises background_priority, the overlay holds the tile
pixel, and the rendered pixel equals it. -/
theorem priority_overlay_spec_witness :
    (0 : Int) ≤ 0 ∧ (0 : Int) < (wEnginePrio.fbWidth : Int) ∧
      (preOverlay wEnginePrio wEnginePrio.line).bgp = true ∧
      (preOverlay wEnginePrio wEnginePrio.line).sprp = false ∧
      (preOverlay wEnginePrio wEnginePrio.line).bufs.prio 0 ≠ 0 ∧
      (DrawScanline none wEnginePrio).2.framebuffer wEnginePrio.line 0 =
        (preOverlay wEnginePrio wEnginePrio.line).bufs.prio 0 :=
  ⟨by decide, by decide, by decide, by decide, by decide,
    priority_overlay_spec.2 wEnginePrio 0 (by decide) (by decide) (by decide) (by decide)
      (by decide)⟩

/-- The line cursor after one DrawScanline call. -/
theorem DrawScanline_line (cb : Option (Int → Engine → Engine)) (e : Engine) :
    (DrawScanline cb e).2.line = (match cb with | some f => f e.line e | none => e).line + 1 :=
  rfl

/-- DrawScanline does not change the framebuffer height. -/
theorem DrawScanline_height (e : Engine) :
    (DrawScanline none e).2.fbHeight = e.fbHeight := rfl

/-- Line cursor and height after n callback-free calls. -/
theorem drawN_props : ∀ (n : Nat) (e : Engine),
    (drawN n e).line = e.line + n ∧ (drawN n e).fbHeight = e.fbHeight := by
  intro n
  induction n with
  | zero =>
    intro e
    exact ⟨by simp [drawN], rfl⟩
  | succ m ih =>
    intro e
    obtain ⟨h1, h2⟩ := ih (DrawScanline none e).2
    constructor
    · show (drawN m (DrawScanline none e).2).line = e.line + ((m + 1 : Nat) : Int)
      rw [h1, DrawScanline_line]
      push_cast
      ring
    · show (drawN m (DrawScanline none e).2).fbHeight = e.fbHeight
      rw [h2, DrawScanline_height]

/-- C1: for an engine on a valid line, DrawScanline renders one
scanline into the framebuffer row of the captured line, leaves all
other rows unchanged, advances the line cursor by exactly one and
returns true exactly when the advanced line is still inside the
framebuffer; and from line 0, after fbHeight calls the cursor equals
fbHeight and the next call returns false. -/
theorem DrawScanline_spec :
    (∀ e : Engine, 0 ≤ e.line → e.line < (e.fbHeight : Int) →
      (DrawScanline none e).2.line = e.line + 1 ∧
      ((DrawScanline none e).1 = true ↔ e.line + 1 < (e.fbHeight : Int)) ∧
      (DrawScanline none e).2.framebuffer e.line = (renderLine e e.line).bufs.scan ∧
      ∀ l : Int, l ≠ e.line → (DrawScanline none e).2.framebuffer l = e.framebuffer l) ∧
    (∀ e : Engine, e.line = 0 →
      (drawN e.fbHeight e).line = (e.fbHeight : Int) ∧
      (DrawScanline none (drawN e.fbHeight e)).1 = false) := by
  constructor
  · intro e h0 hH
    refine ⟨rfl, ?_, ?_, ?_⟩
    · show decide (e.line + 1 < (e.fbHeight : Int)) = true ↔ e.line + 1 < (e.fbHeight : Int)
      exact decide_eq_true_iff
    · show (fun l => if l = e.line then (renderLine e e.line).bufs.scan else e.framebuffer l)
          e.line = (renderLine e e.line).bufs.scan
      simp
    · intro l hl
      show (fun l => if l = e.line then (renderLine e e.line).bufs.scan else e.framebuffer l)
          l = e.framebuffer l
      simp [hl]
  · intro e h0
    obtain ⟨h1, h2⟩ := drawN_props e.fbHeight e
    constructor
    · rw [h1, h0, zero_add]
    · have hret : (DrawScanline none (drawN e.fbHeight e)).1 =
          decide ((drawN e.fbHeight e).line + 1 <
            ((drawN e.fbHeight e).fbHeight : Int)) := rfl
      rw [hret, h1, h2, h0, zero_add]
      rw [decide_eq_false]
      omega

/-- Witness for C1: one call on the empty two-line engine from line 0,
with both hypotheses discharged there. -/
theorem DrawScanline_spec_witness :
    (DrawScanline none wEngineEmpty).2.line = wEngineEmpty.line + 1 ∧
      ((DrawScanline none wEngineEmpty).1 = true ↔
        wEngineEmpty.line + 1 < (wEngineEmpty.fbHeight : Int)) :=
  ⟨(DrawScanline_spec.1 wEngineEmpty (by decide) (by decide)).1,
    (DrawScanline_spec.1 wEngineEmpty (by decide) (by decide)).2.1⟩

/-- C2: the flat tiled painter invokes blitters[1] for every painted
tile regardless of the color-key bit it computed, while the scaling
tiled painter invokes blitters[color_key], so its blitter choice
always equals the recorded color-key bit. -/
theorem tiled_blitter_selection (ctx : DrawCtx) (layer : Layer) (nscan : Int)
    (bufs : RenderBufs) (ev : TileEvent) :
    (ev ∈ (DrawLayerScanline ctx layer nscan bufs).2.2.2 → ev.keyedIndex = true) ∧
    (ev ∈ (DrawLayerScanlineScaling ctx layer nscan bufs).2.2.2 →
      ev.keyedIndex = ev.colorKey) := by
  constructor
  · intro hev
    simp only [DrawLayerScanline] at hev
    rcases hmt : layer.tilemap with _ | tmap <;> rw [hmt] at hev
    · simp at hev
    · dsimp only at hev
      split_ifs at hev
      all_goals
        first
        | (unfold drawTiledFlatBody at hev
           rcases flatLoop_events _ _ _ _ _ _ _ _ _ hev with h | h
           · simp at h
           · exact h.1)
        | simp at hev
  · intro hev
    simp only [DrawLayerScanlineScaling] at hev
    rcases hmt : layer.tilemap with _ | tmap <;> rw [hmt] at hev
    · simp at hev
    · dsimp only at hev
      split_ifs at hev
      all_goals
        first
        | (unfold drawTiledScalingBody at hev
           rcases scalingLoop_events _ _ _ _ _ _ hev with h | h
           · simp at h
           · exact h.1)
        | simp at hev

/-- Witness for C2: the one-cell flat run records a call of blitter
index 1 against a computed color-key bit of false, and the scaling
run records a call of blitter index false equal to its color-key
bit. -/
theorem tiled_blitter_selection_witness :
    ((⟨true, false, 1, 0, 1, false⟩ : TileEvent) ∈
        (DrawLayerScanline wctx wlayerFlat 0 wbufs).2.2.2 ∧
      (⟨true, false, 1, 0, 1, false⟩ : TileEvent).keyedIndex = true) ∧
    ((⟨false, false, 1, 0, 1, false⟩ : TileEvent) ∈
        (DrawLayerScanlineScaling wctx wlayerFlat 0 wbufs).2.2.2 ∧
      (⟨false, false, 1, 0, 1, false⟩ : TileEvent).keyedIndex =
        (⟨false, false, 1, 0, 1, false⟩ : TileEvent).colorKey) :=
  ⟨⟨by decide, (tiled_blitter_selection wctx wlayerFlat 0 wbufs _).1 (by decide)⟩,
    ⟨by decide, (tiled_blitter_selection wctx wlayerFlat 0 wbufs _).2 (by decide)⟩⟩

/-- Witness for C7: a concrete rotated, FLIPX-flipped run through
process_flip_rotation, with the hypothesis discharged at the input. -/
theorem process_flip_rotation_spec_witness :
    (process_flip_rotation 40960 ⟨8, 8, 2, 3, 1, 8⟩).dx = -(1 * 8) ∧
      (process_flip_rotation 40960 ⟨8, 8, 2, 3, 1, 8⟩).srcy = 8 - 2 - 1 ∧
      (process_flip_rotation 40960 ⟨8, 8, 2, 3, 1, 8⟩).srcx = 3 := by
  have h := (process_flip_rotation_spec 40960 ⟨8, 8, 2, 3, 1, 8⟩).2.2.2.2 (by decide)
  refine ⟨?_, ?_, ?_⟩
  · have := h.1
    simpa using this
  · have := h.2.1
    simpa using this
  · have := h.2.2
    simpa using this

/-- The pixel-map tiled painter replies true on every path and never
writes into the priority overlay buffer. -/
theorem pixelMapping_ret (ctx : DrawCtx) (layer : Layer) (nscan : Int) (bufs : RenderBufs) :
    (DrawLayerScanlinePixelMapping ctx layer nscan bufs).1 = true ∧
    (DrawLayerScanlinePixelMapping ctx layer nscan bufs).2.1.prio = bufs.prio := by
  rcases htm : layer.tilemap with _ | tm <;>
    simp only [DrawLayerScanlinePixelMapping, htm] <;>
    first
      | exact ⟨rfl, rfl⟩
      | exact ⟨trivial, trivial⟩
      | (split_ifs <;> exact ⟨rfl, rfl⟩)

/-- The affine tiled painter and all four bitmap painters reply false
on every path. -/
theorem painters_ret_false (ctx : DrawCtx) (layer : Layer) (nscan : Int) (bufs : RenderBufs) :
    (DrawLayerScanlineAffine ctx layer nscan bufs).1 = false ∧
    (DrawBitmapScanline ctx layer nscan bufs).1 = false ∧
    (DrawBitmapScanlineScaling ctx layer nscan bufs).1 = false ∧
    (DrawBitmapScanlineAffine ctx layer nscan bufs).1 = false ∧
    (DrawBitmapScanlinePixelMapping ctx layer nscan bufs).1 = false := by
  refine ⟨?_, ?_, ?_, ?_, ?_⟩
  · rcases htm : layer.tilemap with _ | tm <;>
      simp only [DrawLayerScanlineAffine, htm] <;>
      first | rfl | (split_ifs <;> rfl)
  · rcases hbm : layer.bitmap with _ | bm <;>
      simp only [DrawBitmapScanline, hbm] <;>
      first | rfl | (split_ifs <;> rfl)
  · rcases hbm : layer.bitmap with _ | bm <;>
      simp only [DrawBitmapScanlineScaling, hbm] <;>
      first | rfl | (split_ifs <;> rfl)
  · rcases hbm : layer.bitmap with _ | bm <;>
      simp only [DrawBitmapScanlineAffine, hbm] <;>
      first | rfl | (split_ifs <;> rfl)
  · rcases hbm : layer.bitmap with _ | bm <;>
      simp only [DrawBitmapScanlinePixelMapping, hbm] <;>
      first | rfl | (split_ifs <;> rfl)

/-- UpdateLayer leaves every field this pass inspects unchanged. -/
theorem updateLayerIfDirty_fields (ed : Bool) (L : Layer) :
    (updateLayerIfDirty ed L).ok = L.ok ∧ (updateLayerIfDirty ed L).priority = L.priority ∧
    (updateLayerIfDirty ed L).clipy1 = L.clipy1 ∧
    (updateLayerIfDirty ed L).clipy2 = L.clipy2 ∧
    (updateLayerIfDirty ed L).mode = L.mode ∧
    (updateLayerIfDirty ed L).tilemap = L.tilemap := by
  unfold updateLayerIfDirty
  split_ifs <;> exact ⟨rfl, rfl, rfl, rfl, rfl, rfl⟩

/-- GetLayerDraw routes a tilemap layer in mode 3 to the pixel-map
tiled painter. -/
theorem GetLayerDraw_pixelMap (L : Layer) (h1 : L.tilemap.isSome = true) (h2 : L.mode = 3) :
    GetLayerDraw L = some DrawLayerScanlinePixelMapping := by
  unfold GetLayerDraw
  rw [if_pos h1, h2]

/-- A raised background_priority flag survives one front-pass layer
step. -/
theorem layerStepFront_bgp_mono (ctx : DrawCtx) (ed : Bool) (line : Int) (c : Nat)
    (st : List Layer × RenderBufs × Bool) (h : st.2.2 = true) :
    (layerStepFront ctx ed line c st).2.2 = true := by
  obtain ⟨layers, bufs, bgp⟩ := st
  simp only at h
  simp only [layerStepFront]
  split_ifs with h1 h2
  · rcases hG : GetLayerDraw (updateLayerIfDirty ed (layers.getD c defaultLayer)) with _ | draw <;>
      simp [h]
  · simpa using h
  · simpa using h

/-- One front-pass layer step touches only its own list slot. -/
theorem layerStepFront_frame (ctx : DrawCtx) (ed : Bool) (line : Int) (c c' : Nat)
    (st : List Layer × RenderBufs × Bool) (hne : c ≠ c') :
    (layerStepFront ctx ed line c' st).1.getD c defaultLayer = st.1.getD c defaultLayer := by
  obtain ⟨layers, bufs, bgp⟩ := st
  have hset : ∀ (l : List Layer) (a : Layer),
      (l.set c' a)[c]?.getD defaultLayer = l[c]?.getD defaultLayer := by
    intro l a
    rw [List.getElem?_set_ne (by omega)]
  simp only [layerStepFront]
  split_ifs with h1 h2
  · rcases hG : GetLayerDraw (updateLayerIfDirty ed (layers.getD c' defaultLayer)) with _ | draw <;>
      simp [hset]
  · simp [hset]
  · rfl

/-- The front-pass layer step fires the pixel-map painter, raising
background_priority, whenever the inspected layer is an ok
non-priority mode-3 tilemap layer whose clip window covers the
scanline. -/
theorem layerStepFront_fires (ctx : DrawCtx) (ed : Bool) (line : Int) (c : Nat)
    (st : List Layer × RenderBufs × Bool)
    (hok : (st.1.getD c defaultLayer).ok = true)
    (hpr : (st.1.getD c defaultLayer).priority = false)
    (hy1 : (st.1.getD c defaultLayer).clipy1 ≤ line)
    (hy2 : line ≤ (st.1.getD c defaultLayer).clipy2)
    (hm : (st.1.getD c defaultLayer).mode = 3)
    (htm : (st.1.getD c defaultLayer).tilemap.isSome = true) :
    (layerStepFront ctx ed line c st).2.2 = true := by
  obtain ⟨layers, bufs, bgp⟩ := st
  simp only at hok hpr hy1 hy2 hm htm
  obtain ⟨f1, f2, f3, f4, f5, f6⟩ :=
    updateLayerIfDirty_fields ed (layers.getD c defaultLayer)
  simp only [layerStepFront]
  rw [if_pos hok]
  rw [if_pos ?hcond]
  case hcond =>
    refine ⟨?_, ?_, ?_⟩
    · rw [f2, hpr]
      simp
    · rw [f3]
      exact hy1
    · rw [f4]
      exact hy2
  rw [GetLayerDraw_pixelMap _ (by rw [f6]; exact htm) (by rw [f5]; exact hm)]
  simp [(pixelMapping_ret ctx _ line bufs).1]

/-- A raised background_priority flag survives the rest of the front
layer loop. -/
theorem layersLoopFront_bgp_mono (ctx : DrawCtx) (ed : Bool) (line : Int) :
    ∀ (n : Nat) (st : List Layer × RenderBufs × Bool), st.2.2 = true →
      (layersLoopFront ctx ed line n st).2.2 = true := by
  intro n
  induction n with
  | zero => intro st h; exact h
  | succ m ih =>
    intro st h
    exact ih _ (layerStepFront_bgp_mono ctx ed line m st h)

/-- If some index below the loop count holds an ok non-priority mode-3
tilemap layer covering the scanline, the front layer loop ends with
background_priority raised. -/
theorem layersLoopFront_fires (ctx : DrawCtx) (ed : Bool) (line : Int) :
    ∀ (n : Nat) (st : List Layer × RenderBufs × Bool) (c : Nat), c < n →
      (st.1.getD c defaultLayer).ok = true →
      (st.1.getD c defaultLayer).priority = false →
      (st.1.getD c defaultLayer).clipy1 ≤ line →
      line ≤ (st.1.getD c defaultLayer).clipy2 →
      (st.1.getD c defaultLayer).mode = 3 →
      (st.1.getD c defaultLayer).tilemap.isSome = true →
      (layersLoopFront ctx ed line n st).2.2 = true := by
  intro n
  induction n with
  | zero => intro st c hc; omega
  | succ m ih =>
    intro st c hc hok hpr hy1 hy2 hm htm
    show (layersLoopFront ctx ed line m (layerStepFront ctx ed line m st)).2.2 = true
    by_cases hcm : c = m
    · subst hcm
      exact layersLoopFront_bgp_mono ctx ed line c _
        (layerStepFront_fires ctx ed line c st hok hpr hy1 hy2 hm htm)
    · have hfr := layerStepFront_frame ctx ed line c m st hcm
      exact ih _ c (by omega) (hfr ▸ hok) (hfr ▸ hpr) (hfr ▸ hy1) (hfr ▸ hy2)
        (hfr ▸ hm) (hfr ▸ htm)

/-- C10: the pixel-map tiled painter returns true on every path while
never writing the priority overlay, the affine tiled painter and all
four bitmap painters return false on every path; consequently any
scanline that draws an ok non-priority PIXEL_MAP tilemap layer leaves
the front pass with background_priority raised, so the priority
overlay copy runs even though no tile routed pixels there. -/
theorem pixel_map_priority_spec :
    (∀ (ctx : DrawCtx) (layer : Layer) (nscan : Int) (bufs : RenderBufs),
      (DrawLayerScanlinePixelMapping ctx layer nscan bufs).1 = true ∧
      (DrawLayerScanlinePixelMapping ctx layer nscan bufs).2.1.prio = bufs.prio ∧
      (DrawLayerScanlineAffine ctx layer nscan bufs).1 = false ∧
      (DrawBitmapScanline ctx layer nscan bufs).1 = false ∧
      (DrawBitmapScanlineScaling ctx layer nscan bufs).1 = false ∧
      (DrawBitmapScanlineAffine ctx layer nscan bufs).1 = false ∧
      (DrawBitmapScanlinePixelMapping ctx layer nscan bufs).1 = false) ∧
    (∀ (e : Engine) (line : Int) (c : Nat), c < e.numlayers →
      (e.layers.getD c defaultLayer).ok = true →
      (e.layers.getD c defaultLayer).priority = false →
      (e.layers.getD c defaultLayer).clipy1 ≤ line →
      line ≤ (e.layers.getD c defaultLayer).clipy2 →
      (e.layers.getD c defaultLayer).mode = 3 →
      (e.layers.getD c defaultLayer).tilemap.isSome = true →
      (preOverlay e line).bgp = true) := by
  constructor
  · intro ctx layer nscan bufs
    obtain ⟨p1, p2⟩ := pixelMapping_ret ctx layer nscan bufs
    obtain ⟨q1, q2, q3, q4, q5⟩ := painters_ret_false ctx layer nscan bufs
    exact ⟨p1, p2, q1, q2, q3, q4, q5⟩
  · intro e line c hc hok hpr hy1 hy2 hm htm
    have hn : e.numlayers > 0 := by omega
    have hbg : (preOverlay e line).bgp =
        (layersLoopFront { width := e.fbWidth, pitch := e.pitch, palettes := e.palettes }
          e.dirty line e.numlayers
          (e.layers,
            { scan := backgroundStage e line (e.framebuffer line),
              prio := clearBytes e.priority e.pitch,
              linebuf := e.linebuffer, coll := e.collision }, false)).2.2 := by
      simp only [preOverlay]
      rw [if_pos hn]
    rw [hbg]
    exact layersLoopFront_fires _ e.dirty line e.numlayers _ c hc hok hpr hy1 hy2 hm htm

/-- Witness for C10: the one-line engine whose single layer is an ok
non-priority PIXEL_MAP tilemap layer raises background_priority, with
every hypothesis discharged at the concrete input. -/
theorem pixel_map_priority_spec_witness :
    (0 : Nat) < wEnginePM.numlayers ∧ (preOverlay wEnginePM 0).bgp = true :=
  ⟨by decide,
    pixel_map_priority_spec.2 wEnginePM 0 0 (by decide) (by decide) (by decide) (by decide)
      (by decide) (by decide) (by decide)⟩

end Tilengine
